import Mathlib

/-!
Verification development for the Customer-Whatsapp-Bot core subsystems:
the MCP client connection pool (client/client_pool.py) and the enhanced
Redis session service (services/redis/redis_service_enhanced.py).

Python dictionaries are embedded as association lists with replace-first
update semantics (Python dicts have unique keys; lookup finds the first
entry, so the embedding agrees with dict semantics on all states built by
the embedded operations).  JSON documents are embedded as the inductive
type JValue; machine timestamps (datetime.utcnow, time.time) are embedded
as a logical clock threaded through the state, and the timestamp-derived
unique connection ids are embedded as a fresh-id counter.
-/

/-- Lookup in an association list: first entry whose key matches, as a
Python dict lookup. -/

def alookup {α β : Type} [DecidableEq α] : List (α × β) → α → Option β
  | [], _ => none
  | (k, v) :: rest, key => if k = key then some v else alookup rest key

/-- Dict assignment d[k] = v: replace the first entry with key k, or append
a new entry at the end (Python dicts keep insertion order; a re-assigned
key keeps its position). -/

def aupsert {α β : Type} [DecidableEq α] : List (α × β) → α → β → List (α × β)
  | [], k, v => [(k, v)]
  | (k', v') :: rest, k, v =>
    if k' = k then (k, v) :: rest else (k', v') :: aupsert rest k v

/-- Dict deletion del d[k] (Redis DEL): remove the first entry with key k. -/

def aremove {α β : Type} [DecidableEq α] : List (α × β) → α → List (α × β)
  | [], _ => []
  | (k', v') :: rest, k => if k' = k then rest else (k', v') :: aremove rest k

/-- deque.remove(x): remove the first occurrence of x. -/

def removeFirst {α : Type} [DecidableEq α] : List α → α → List α
  | [], _ => []
  | x :: rest, a => if x = a then rest else x :: removeFirst rest a

/-- JSON documents, as produced by json.loads. -/

inductive JValue : Type where
  | null : JValue
  | bool (b : Bool) : JValue
  | num (n : Int) : JValue
  | str (s : String) : JValue
  | arr (elems : List JValue) : JValue
  | obj (fields : List (String × JValue)) : JValue

/-- Check for a JSON object (Python isinstance(value, dict)). -/

def isObjB : JValue → Bool
  | .obj _ => true
  | _ => false

-- Size of a JSON document, counting object entries: the termination
-- measure of the source's _deep_merge recursion, made explicit so that the
-- fuel of deepMergeF below can be computed.

mutual

def jsize : JValue → Nat
  | .obj fields => 1 + jsizeL fields
  | _ => 1

def jsizeL : List (String × JValue) → Nat
  | [] => 0
  | (_, v) :: rest => 1 + jsize v + jsizeL rest

end

/-- EnhancedRedisSessionService._deep_merge, specialized to the field lists
of the two objects: iterate over the updates in order; when both the
current value and the update value are dicts, merge recursively, otherwise
overwrite (the code deep-copies the base first; the embedding is pure, so
the copy is implicit).  The source recursion descends strictly into the
update document; the embedding makes that termination measure an explicit
structural fuel argument, and deepMergeObj below runs the merge with the
always-adequate fuel jsizeL upd (deepMergeF_congr in the theorems section
shows every fuel of at least jsizeL upd computes the same result, so the
fuel never runs out on the wrapper's calls and the wrapper satisfies
exactly the source's recursion equations, deepMergeObj_nil and
deepMergeObj_cons). -/

def deepMergeF : Nat → List (String × JValue) → List (String × JValue) → List (String × JValue)
  | 0, base, _ => base
  | _ + 1, base, [] => base
  | fuel + 1, base, (k, JValue.obj u) :: rest =>
    match alookup base k with
    | some (JValue.obj b) => deepMergeF fuel (aupsert base k (JValue.obj (deepMergeF fuel b u))) rest
    | _ => deepMergeF fuel (aupsert base k (JValue.obj u)) rest
  | fuel + 1, base, (k, v) :: rest => deepMergeF fuel (aupsert base k v) rest

def deepMergeObj (base upd : List (String × JValue)) : List (String × JValue) :=
  deepMergeF (jsizeL upd) base upd

/-- Field access on a JSON object. -/

def getField (j : JValue) (k : String) : Option JValue :=
  match j with
  | .obj fs => alookup fs k
  | _ => none

/-- session_data.get("version", 1) followed by current_version + 1: a
missing field defaults to 1; a non-numeric field makes the increment raise
(TypeError), embedded as none. -/

def versionD (fields : List (String × JValue)) : Option Int :=
  match alookup fields "version" with
  | none => some 1
  | some (.num n) => some n
  | some _ => none

/-- EnhancedRedisSessionService._validate_session_data: requires the four
identity fields to be present as keys, then checks
cart.get("total_amount", 0) < 0 on cart = session_data.get("cart", ...).
Returns the raised error message, or none when validation passes.  A
non-dict cart or a non-comparable total raises as well (TypeError or
AttributeError in the source, embedded as an error result here; a Bool
total compares numerically in Python and never trips the check). -/

def validateSession (fields : List (String × JValue)) : Option String :=
  if (alookup fields "user_id").isNone then some "Missing required field: user_id"
  else if (alookup fields "phone_number").isNone then some "Missing required field: phone_number"
  else if (alookup fields "created_at").isNone then some "Missing required field: created_at"
  else if (alookup fields "updated_at").isNone then some "Missing required field: updated_at"
  else
    match alookup fields "cart" with
    | none => none
    | some (.obj cart) =>
      match alookup cart "total_amount" with
      | none => none
      | some (.num n) => if n < 0 then some "Invalid cart total amount" else none
      | some (.bool _) => none
      | some _ => some "unorderable cart total_amount"
    | some _ => some "cart has no attribute get"

/-- EnhancedRedisSessionService._create_default_session.  ISO-8601
timestamps are abstracted to the numeric clock value now; expires_at is
now + ttl with the configured ttl of 86400 seconds. -/

def createDefaultSession (user_id phone_number : String) (now : Int) : List (String × JValue) :=
  [ ("user_id", .str user_id),
    ("phone_number", .str phone_number),
    ("created_at", .num now),
    ("updated_at", .num now),
    ("expires_at", .num (now + 86400)),
    ("version", .num 1),
    ("user_data", .obj
      [ ("profile", .obj
          [ ("name", .str ""),
            ("email", .str ""),
            ("preferences", .obj
              [ ("categories", .arr []),
                ("brands", .arr []),
                ("price_range", .obj [("min", .num 0), ("max", .num 100000)]) ]) ]),
        ("metrics", .obj
          [ ("total_orders", .num 0),
            ("total_spent", .num 0),
            ("last_order_date", .null) ]) ]),
    ("cart", .obj
      [ ("items", .arr []),
        ("total_items", .num 0),
        ("total_amount", .num 0),
        ("discount", .num 0),
        ("tax", .num 0),
        ("final_amount", .num 0) ]),
    ("conversation_context", .obj
      [ ("history", .arr []),
        ("current_flow", .str "browsing"),
        ("last_activity", .num now),
        ("ai_context", .obj
          [ ("last_search", .str ""),
            ("viewed_products", .arr []),
            ("interested_categories", .arr []) ]) ]),
    ("recommendations", .obj
      [ ("personalized", .arr []),
        ("viewed", .arr []),
        ("cart_based", .arr []),
        ("trending", .arr []) ]),
    ("order_context", .obj [("pending_order", .null), ("last_order", .null)]),
    ("try_on_context", .obj
      [ ("user_image_url", .null),
        ("tried_products", .arr []),
        ("saved_results", .arr []) ]) ]

/-- Value stored under a session key: the JSON document (stored serialized
in Redis, kept parsed here) and the SETEX time-to-live. -/

structure StoredEntry : Type where
  data : JValue
  ttl : Nat

/-- Redis keyspace holding the sessions. -/

abbrev SessStore := List (String × StoredEntry)

/-- EnhancedRedisSessionService._get_session_key. -/

def session_key (user_id : String) : String := "session:" ++ user_id

/-- Entry stored under a lock key: the token written by SET NX EX (a
utcnow timestamp, embedded as the lock-state clock value at acquisition)
and the absolute expiry instant. -/

structure LockEntry : Type where
  value : Nat
  expiresAt : Nat

/-- Redis keyspace holding the lock tokens, plus the server clock used for
key expiry and for minting timestamp tokens. -/

structure LockState : Type where
  locks : List (String × LockEntry)
  now : Nat

/-- Lock key construction: self.lock_prefix + resource. -/

def lockKey (resource : String) : String := "lock:" ++ resource

/-- Redis GET on a lock key: an expired entry reads as absent. -/

def lockGet (st : LockState) (key : String) : Option Nat :=
  match alookup st.locks key with
  | some e => if st.now < e.expiresAt then some e.value else none
  | none => none

/-- Acquisition half of EnhancedRedisSessionService.distributed_lock:
SET key value NX EX timeout; when the key is live the call raises
immediately (no blocking, no retry), otherwise the caller's token is
stored with the expiry. -/

def distributedLockAcquire (st : LockState) (resource : String) (timeout : Nat) :
    Except String (Nat × LockState) :=
  let key := lockKey resource
  match lockGet st key with
  | some _ => .error ("Could not acquire lock for " ++ resource)
  | none =>
    let tok := st.now
    .ok (tok, { st with
      locks := aupsert st.locks key { value := tok, expiresAt := st.now + timeout } })

/-- Release half of distributed_lock (the Lua script): delete the key only
when its live value still equals the token this caller wrote. -/

def distributedLockRelease (st : LockState) (resource : String) (token : Nat) : LockState :=
  let key := lockKey resource
  match lockGet st key with
  | some v => if v = token then { st with locks := aremove st.locks key } else st
  | none => st

/-- Time passing on the lock server. -/

def lockTick (st : LockState) (d : Nat) : LockState := { st with now := st.now + d }

/-- Database state touched by create_session: the session keyspace and the
active_sessions set (SADD is idempotent). -/

structure RedisDB : Type where
  sessions : SessStore
  active_sessions : List String

inductive CreateErr : Type where
  | lockNotAcquired (msg : String)
  | invalidData (msg : String)

/-- Session value built by the miss branch of create_session: the default
session with the optional initial data deep-merged in. -/

def mergedSeed (user_id phone_number : String) (initial_data : Option (List (String × JValue)))
    (now : Int) : List (String × JValue) :=
  match initial_data with
  | some upd => deepMergeObj (createDefaultSession user_id phone_number now) upd
  | none => createDefaultSession user_id phone_number now

/-- EnhancedRedisSessionService.create_session: under the distributed lock
"session_create_" + user_id (default timeout 10), return the stored
session unchanged if present; otherwise build the default session, deep
merge the initial data, validate, and SETEX it with ttl 86400 plus SADD on
active_sessions.  The lock is released on every path (the context-manager
finally); a validation error propagates with no write (the with_retry
decorator does not retry ValueError). -/

def create_session (lockSt : LockState) (db : RedisDB) (user_id phone_number : String)
    (initial_data : Option (List (String × JValue))) (now : Int) :
    Except CreateErr JValue × RedisDB × LockState :=
  let resource := "session_create_" ++ user_id
  match distributedLockAcquire lockSt resource 10 with
  | .error msg => (.error (.lockNotAcquired msg), db, lockSt)
  | .ok (tok, st1) =>
    let key := session_key user_id
    match alookup db.sessions key with
    | some entry => (.ok entry.data, db, distributedLockRelease st1 resource tok)
    | none =>
      let merged := mergedSeed user_id phone_number initial_data now
      match validateSession merged with
      | some msg => (.error (.invalidData msg), db, distributedLockRelease st1 resource tok)
      | none =>
        let db' : RedisDB :=
          { sessions := aupsert db.sessions key { data := .obj merged, ttl := 86400 },
            active_sessions :=
              if user_id ∈ db.active_sessions then db.active_sessions
              else db.active_sessions ++ [user_id] }
        (.ok (.obj merged), db', distributedLockRelease st1 resource tok)

/-- Outcome of one fetch from one Redis client inside get_session: the
client raised, the key was absent (or falsy), or a raw payload came back. -/

inductive StoredRaw : Type where
  | good (j : JValue)
  | corrupt

inductive Fetch : Type where
  | fetchErr
  | absent
  | present (raw : StoredRaw)

/-- json.loads on the raw payload, abstracted: a corrupt payload raises
(embedded as none). -/

def parseRaw : StoredRaw → Option JValue
  | .good j => some j
  | .corrupt => none

/-- EnhancedRedisSessionService.get_session: walk the configured clients in
order; a raised fetch, a missing record, or an unparseable record all fall
through to the next client; after the last client the result is None.  The
per-client try/except and the outer except make the whole body
exception-free, so the embedding is a total function into Option. -/

def get_session (clients : List (String → Fetch)) (key : String) : Option JValue :=
  match clients with
  | [] => none
  | c :: rest =>
    match c key with
    | .fetchErr => get_session rest key
    | .absent => get_session rest key
    | .present raw =>
      match parseRaw raw with
      | some j => some j
      | none => get_session rest key

/-- View a session store as a get_session client that never raises. -/

def storeClient (s : SessStore) : String → Fetch := fun k =>
  match alookup s k with
  | some e => .present (.good e.data)
  | none => .absent

inductive UpdateErr : Type where
  | sessionNotFound
  | invalidData (msg : String)
  | typeErr
  | optimisticLockFailed
deriving DecidableEq

/-- One CAS check of the update_session Lua script against the store state
at execution time: the key must exist and its decoded version field must
equal the expected version. -/

def casVersionOk (s : SessStore) (key : String) (expected : Int) : Bool :=
  match alookup s key with
  | none => false
  | some e =>
    match getField e.data "version" with
    | some (.num n) => if n = expected then true else false
    | _ => false

/-- One iteration of the update_session retry loop against the store as
seen at read time (sRead) and at Lua-script time (sCas): read the session,
take version with default 1, deep-merge the updates, stamp updated_at and
version = read version + 1, validate, then conditionally SETEX through the
Lua compare-and-swap. -/

def updateAttempt (key : String) (updates : List (String × JValue)) (now : Int)
    (sRead sCas : SessStore) : Except UpdateErr (JValue × SessStore) :=
  match alookup sRead key with
  | none => .error .sessionNotFound
  | some entry =>
    match entry.data with
    | .obj cur =>
      match versionD cur with
      | none => .error .typeErr
      | some ver =>
        let m1 := deepMergeObj cur updates
        let m2 := aupsert m1 "updated_at" (.num now)
        let merged := aupsert m2 "version" (.num (ver + 1))
        match validateSession merged with
        | some msg => .error (.invalidData msg)
        | none =>
          if casVersionOk sCas key ver then
            .ok (.obj merged, aupsert sCas key { data := .obj merged, ttl := 86400 })
          else .error .optimisticLockFailed
    | _ => .error .typeErr

/-- Result of an update_session call: its return or raised error, the
primary-store state when the call returns, the number of loop iterations
run, and the asyncio.sleep backoffs taken (in milliseconds). -/

structure UpdateRun : Type where
  result : Except UpdateErr JValue
  store : SessStore
  attempts : Nat
  backoffs : List Nat

/-- The for-attempt-in-range(max_retries) loop of update_session.  Each
schedule element holds the interference other writers apply to the store
before this attempt's read and between its read and its CAS.  A version
conflict on a non-final attempt sleeps 0.1 * (attempt + 1) seconds and
retries; the catch-all except retries every other error as well without
sleeping; on the final attempt the conflict error (or the caught error)
propagates. -/

def updateGo (key : String) (updates : List (String × JValue)) (now : Int) :
    List ((SessStore → SessStore) × (SessStore → SessStore)) → SessStore → Nat → List Nat →
    UpdateRun
  | [], s, att, backs =>
    { result := .error .optimisticLockFailed, store := s, attempts := att, backoffs := backs }
  | (f, g) :: rest, s, att, backs =>
    let sRead := f s
    let sCas := g sRead
    match updateAttempt key updates now sRead sCas with
    | .ok (j, s') => { result := .ok j, store := s', attempts := att + 1, backoffs := backs }
    | .error e =>
      match rest with
      | [] => { result := .error e, store := sCas, attempts := att + 1, backoffs := backs }
      | _ :: _ =>
        match e with
        | .optimisticLockFailed =>
          updateGo key updates now rest sCas (att + 1) (backs ++ [100 * (att + 1)])
        | _ => updateGo key updates now rest sCas (att + 1) backs

/-- EnhancedRedisSessionService.update_session with its fixed
max_retries = 3: three schedule slots, one per possible attempt. -/

def update_session (user_id : String) (updates : List (String × JValue)) (now : Int)
    (a1 a2 a3 : (SessStore → SessStore) × (SessStore → SessStore)) (s : SessStore) : UpdateRun :=
  updateGo (session_key user_id) updates now [a1, a2, a3] s 0 []

/-- Schedule slot with no concurrent writers. -/

def noInterference : (SessStore → SessStore) × (SessStore → SessStore) := (id, id)

/-- ClientConnection metadata (client_pool.py); the wrapped MCPClient is
opaque and carries no pool state. -/

structure ClientConnection : Type where
  created_at : Nat
  last_used : Nat
  use_count : Nat
  is_busy : Bool
  current_user : Option String
deriving DecidableEq

/-- ClientConnection.mark_used. -/

def markUsed (c : ClientConnection) (user : String) (now : Nat) : ClientConnection :=
  { c with last_used := now, use_count := c.use_count + 1, is_busy := true,
           current_user := some user }

/-- ClientConnection.mark_released. -/

def markReleased (c : ClientConnection) : ClientConnection :=
  { c with is_busy := false, current_user := none }

/-- ClientPool state.  Connection ids are minted from the monotone next_id
counter (the source derives them from a millisecond timestamp); clock is
the utcnow value stamped into connection metadata, ticked once per
acquisition. -/

structure ClientPool : Type where
  pool_size : Nat
  available_connections : List Nat
  all_connections : List (Nat × ClientConnection)
  user_connections : List (String × Nat)
  connections_created : Nat
  connections_reused : Nat
  total_requests : Nat
  pool_exhausted_count : Nat
  next_id : Nat
  clock : Nat

/-- Which branch of get_connection produced the lease handed to the
caller; reused mirrors client._was_reused = True, the other pool-allocated
branches set it False, temporary is the outside-bookkeeping overflow
client. -/

inductive AcquireResult : Type where
  | reused (cid : Nat)
  | assigned (cid : Nat)
  | created (cid : Nat)
  | temporary
deriving DecidableEq

/-- ClientPool._create_connection: mint a fresh id, wrap a freshly
connected client (not busy, unowned), add it to all_connections, append it
to available_connections and bump connections_created. -/

def createConnection (p : ClientPool) : Nat × ClientConnection × ClientPool :=
  let cid := p.next_id
  let conn : ClientConnection :=
    { created_at := p.clock, last_used := p.clock, use_count := 0,
      is_busy := false, current_user := none }
  (cid, conn,
    { p with
      all_connections := aupsert p.all_connections cid conn,
      available_connections := p.available_connections ++ [cid],
      connections_created := p.connections_created + 1,
      next_id := p.next_id + 1 })

/-- Result of the while-available_connections loop in get_connection:
the first popped entry that is tracked and not busy (with its connection),
the deque contents left after the loop, and the final value of the local
variable connection (None when the last lookup missed, the last popped
busy connection otherwise, or the initial value when the deque was
empty). -/

structure PopOut : Type where
  found : Option (Nat × ClientConnection)
  rest : List Nat
  connVar : Option Nat

/-- The while-available_connections loop body: popleft, look the id up in
all_connections, skip entries that are missing or busy. -/

def popLoop (all : List (Nat × ClientConnection)) : List Nat → Option Nat → PopOut
  | [], cv => { found := none, rest := [], connVar := cv }
  | cid :: rest, _ =>
    match alookup all cid with
    | none => popLoop all rest none
    | some c =>
      if c.is_busy then popLoop all rest (some cid)
      else { found := some (cid, c), rest := rest, connVar := some cid }

/-- Outcome of the acquisition phase of get_connection: the branch taken,
the value of the local variable connection at yield time (what the finally
block will release), and the pool state at yield time. -/

structure AcquireOut : Type where
  result : AcquireResult
  connVar : Option Nat
  pool : ClientPool

/-- Branches of get_connection after the per-user affinity check missed:
drain the deque looking for an available connection, else create a new one
while under pool_size, else take the temporary-overflow branch bumping
pool_exhausted_count.  cv is the value the local variable connection had
when control reached the loop. -/

def acquireSlow (p : ClientPool) (user : String) (cv : Option Nat) : AcquireOut :=
  match popLoop p.all_connections p.available_connections cv with
  | { found := some (cid, c), rest := rest, connVar := cv' } =>
    { result := .assigned cid, connVar := cv',
      pool := { p with
        available_connections := rest,
        all_connections := aupsert p.all_connections cid (markUsed c user p.clock),
        user_connections := aupsert p.user_connections user cid } }
  | { found := none, rest := rest, connVar := cv' } =>
    if p.all_connections.length < p.pool_size then
      let created := createConnection { p with available_connections := rest }
      let cid := created.1
      let conn := created.2.1
      let p1 := created.2.2
      let p2 := { p1 with
        all_connections := aupsert p1.all_connections cid (markUsed conn user p.clock),
        user_connections := aupsert p1.user_connections user cid }
      let p3 := { p2 with
        available_connections :=
          if cid ∈ p2.available_connections then removeFirst p2.available_connections cid
          else p2.available_connections }
      { result := .created cid, connVar := some cid, pool := p3 }
    else
      { result := .temporary, connVar := cv',
        pool := { p with
          available_connections := rest,
          pool_exhausted_count := p.pool_exhausted_count + 1 } }

/-- Acquisition phase of ClientPool.get_connection (everything from lock
entry to the yield): bump total_requests, try the per-user affinity reuse,
then fall through to acquireSlow.  The whole phase runs under the pool
lock, so it is one atomic step on pool state. -/

def get_connection_acquire (p0 : ClientPool) (user : String) : AcquireOut :=
  let p := { p0 with total_requests := p0.total_requests + 1, clock := p0.clock + 1 }
  match alookup p.user_connections user with
  | some cid =>
    match alookup p.all_connections cid with
    | some c =>
      if c.is_busy then acquireSlow p user (some cid)
      else
        { result := .reused cid, connVar := some cid,
          pool := { p with
            all_connections := aupsert p.all_connections cid (markUsed c user p.clock),
            connections_reused := p.connections_reused + 1 } }
    | none => acquireSlow p user none
  | none => acquireSlow p user none

/-- The finally block of get_connection: when the local variable connection
is set, mark it released and append its id to the idle deque unless
already present.  Python mutates the connection object; ids are never
removed from all_connections, so the id-indexed update is equivalent. -/

def get_connection_release (p : ClientPool) (cv : Option Nat) : ClientPool :=
  match cv with
  | none => p
  | some cid =>
    match alookup p.all_connections cid with
    | none => p
    | some c =>
      let p1 := { p with all_connections := aupsert p.all_connections cid (markReleased c) }
      if cid ∈ p1.available_connections then p1
      else { p1 with available_connections := p1.available_connections ++ [cid] }

/-- ClientPool.get_stats. -/

structure PoolStats : Type where
  connections_created : Nat
  connections_reused : Nat
  total_requests : Nat
  pool_exhausted_count : Nat
  pool_size : Nat
  total_connections : Nat
  available_connections : Nat
  busy_connections : Nat
  users_mapped : Nat

def get_stats (p : ClientPool) : PoolStats :=
  { connections_created := p.connections_created,
    connections_reused := p.connections_reused,
    total_requests := p.total_requests,
    pool_exhausted_count := p.pool_exhausted_count,
    pool_size := p.pool_size,
    total_connections := p.all_connections.length,
    available_connections := p.available_connections.length,
    busy_connections := (p.all_connections.filter (fun e => e.2.is_busy)).length,
    users_mapped := p.user_connections.length }

/-- Phase of one task (one logical request) with respect to the pool's
get_connection context manager: idle (not inside it), inUse (suspended at
the yield, the caller using the lease), or finalizing (the with-block and
its lock exited, the finally-block bookkeeping still pending).  inUse
records the branch taken, the local variable connection, and the id of the
temporary client when the overflow branch was taken. -/

inductive TaskPhase : Type where
  | idle
  | inUse (res : AcquireResult) (connVar : Option Nat) (tempId : Option Nat)
  | finalizing (res : AcquireResult) (connVar : Option Nat)
deriving DecidableEq

structure PoolTask : Type where
  user : String
  phase : TaskPhase
deriving DecidableEq

/-- Interleaving configuration: the pool, the asyncio.Lock owner (by task
index; the yield sits inside the lock's with-block, so the owner keeps it
while the caller uses the lease), the tasks, the supply of temporary
client ids, and the temporary clients disconnected so far. -/

structure Cfg : Type where
  pool : ClientPool
  lockOwner : Option Nat
  tasks : List PoolTask
  nextTemp : Nat
  tempsDisconnected : List Nat

/-- Task i enters get_connection: takes the pool lock and runs the whole
acquisition phase (the lock stays held across _create_connection's backend
I/O, so no other task can interleave pool mutations) and suspends at the
yield. -/

def stepEnter (cfg : Cfg) (i : Nat) : Cfg :=
  match cfg.tasks[i]? with
  | none => cfg
  | some t =>
    let out := get_connection_acquire cfg.pool t.user
    match out.result with
    | .temporary =>
      { cfg with
        pool := out.pool,
        lockOwner := some i,
        tasks := cfg.tasks.set i { t with phase := .inUse .temporary out.connVar (some cfg.nextTemp) },
        nextTemp := cfg.nextTemp + 1 }
    | r =>
      { cfg with
        pool := out.pool,
        lockOwner := some i,
        tasks := cfg.tasks.set i { t with phase := .inUse r out.connVar none } }

/-- Task i leaves the caller's with-block (normally or by an exception
raised while using the lease): the generator resumes, the temporary
client's inner finally disconnects it, and the with self._lock block
exits, releasing the pool lock; the outer finally has not yet run. -/

def stepExit (cfg : Cfg) (i : Nat) : Cfg :=
  match cfg.tasks[i]? with
  | none => cfg
  | some t =>
    match t.phase with
    | .inUse res cv tid =>
      { cfg with
        lockOwner := none,
        tasks := cfg.tasks.set i { t with phase := .finalizing res cv },
        tempsDisconnected :=
          match tid with
          | some tempId => cfg.tempsDisconnected ++ [tempId]
          | none => cfg.tempsDisconnected }
    | _ => cfg

/-- Task i runs the outer finally of get_connection: re-acquires the lock
(atomically here: the body has no suspension other than the acquire),
marks the recorded connection released and returns it to the idle deque,
and goes idle. -/

def stepFinalize (cfg : Cfg) (i : Nat) : Cfg :=
  match cfg.tasks[i]? with
  | none => cfg
  | some t =>
    match t.phase with
    | .finalizing _ cv =>
      { cfg with
        pool := get_connection_release cfg.pool cv,
        tasks := cfg.tasks.set i { t with phase := .idle } }
    | _ => cfg

/-- Interleaving semantics of get_connection under the asyncio.Lock: a
task may enter only when the lock is free, may resume from the yield at
any time, and may run its finally only when the lock is free again. -/

inductive PStep : Cfg → Cfg → Prop where
  | enter (cfg : Cfg) (i : Nat) (t : PoolTask) :
      cfg.tasks[i]? = some t → t.phase = .idle → cfg.lockOwner = none →
      PStep cfg (stepEnter cfg i)
  | exitUse (cfg : Cfg) (i : Nat) (t : PoolTask) (res : AcquireResult)
      (cv : Option Nat) (tid : Option Nat) :
      cfg.tasks[i]? = some t → t.phase = .inUse res cv tid →
      PStep cfg (stepExit cfg i)
  | finalize (cfg : Cfg) (i : Nat) (t : PoolTask) (res : AcquireResult) (cv : Option Nat) :
      cfg.tasks[i]? = some t → t.phase = .finalizing res cv → cfg.lockOwner = none →
      PStep cfg (stepFinalize cfg i)

/-- Reachability by interleaved get_connection acquire and release steps. -/

inductive Reach : Cfg → Cfg → Prop where
  | refl (c : Cfg) : Reach c c
  | tail {a b c : Cfg} : Reach a b → PStep b c → Reach a c

/-- Fresh pool of the given capacity with one idle task per user. -/

def initCfg (size : Nat) (users : List String) : Cfg :=
  { pool :=
      { pool_size := size, available_connections := [], all_connections := [],
        user_connections := [], connections_created := 0, connections_reused := 0,
        total_requests := 0, pool_exhausted_count := 0, next_id := 0, clock := 0 },
    lockOwner := none,
    tasks := users.map (fun u => { user := u, phase := .idle }),
    nextTemp := 0,
    tempsDisconnected := [] }

/-- Phase of task i. -/

def taskPhase (cfg : Cfg) (i : Nat) : Option TaskPhase := (cfg.tasks[i]?).map PoolTask.phase

def isInUseB : TaskPhase → Bool
  | .inUse _ _ _ => true
  | _ => false

/-- Task i is suspended at the yield, holding a lease. -/

def inUseB (cfg : Cfg) (i : Nat) : Bool :=
  match taskPhase cfg i with
  | some ph => isInUseB ph
  | none => false

/-- Single user "A", capacity 1: acquire (creates connection 0), release,
acquire again (affinity reuse). -/

def cfgA0 : Cfg := initCfg 1 ["A"]

def cfgA1 : Cfg := stepEnter cfgA0 0

def cfgA2 : Cfg := stepExit cfgA1 0

def cfgA3 : Cfg := stepFinalize cfgA2 0

def cfgA4 : Cfg := stepEnter cfgA3 0

/-- Pool bookkeeping invariant that does survive every step: every tracked
connection that is not busy sits in the idle deque.  (The converse
direction fails: the affinity-reuse branch marks a connection busy without
popping it.) -/

def PoolInv (p : ClientPool) : Prop :=
  ∀ cid c, alookup p.all_connections cid = some c → c.is_busy = false →
    cid ∈ p.available_connections

/-- Lock-ownership invariant: a task suspended at the yield holds the pool
lock (the yield statement is inside the with self._lock block). -/

def LockInv (cfg : Cfg) : Prop := ∀ i, inUseB cfg i = true → cfg.lockOwner = some i

/-- Branch condition of the affinity-reuse path of get_connection: the
caller's mapped connection exists, is tracked, and is not busy. -/

def affinityHit (p : ClientPool) (u : String) : Option (Nat × ClientConnection) :=
  match alookup p.user_connections u with
  | some cid =>
    match alookup p.all_connections cid with
    | some c => if c.is_busy then none else some (cid, c)
    | none => none
  | none => none

/-- Capacity-0 pool: the first acquire takes the temporary-overflow path. -/

def cfgT0 : Cfg := initCfg 0 ["A"]

def cfgT1 : Cfg := stepEnter cfgT0 0

def cfgT2 : Cfg := stepExit cfgT1 0

/-- Small stored session used to exercise the update path on concrete
inputs. -/

def base9 : List (String × JValue) :=
  [ ("user_id", .str "u1"), ("phone_number", .str "p1"), ("created_at", .num 0),
    ("updated_at", .num 0), ("version", .num 1),
    ("cart", .obj [("items", .arr []), ("total_amount", .num 0)]) ]

def s9 : SessStore := [(session_key "u1", { data := .obj base9, ttl := 86400 })]

/-- Value stored for key k by one step of _deep_merge: recursive merge
when both the existing value and the update value are dicts, otherwise the
update value replaces whole. -/

def mergeStep (base : List (String × JValue)) (k : String) (v : JValue) : JValue :=
  match alookup base k, v with
  | some (JValue.obj b), JValue.obj u => JValue.obj (deepMergeObj b u)
  | _, _ => v

/-- A fetch outcome that get_session would return from: a present,
parseable record. -/

def fetchHitB : Fetch → Bool
  | .present (.good _) => true
  | _ => false

theorem alookup_aupsert_self {α β : Type} [DecidableEq α]
    (l : List (α × β)) (k : α) (v : β) : alookup (aupsert l k v) k = some v := by
  induction l with
  | nil => simp [aupsert, alookup]
  | cons hd tl ih =>
    obtain ⟨k', v'⟩ := hd
    by_cases h : k' = k
    · simp [aupsert, h, alookup]
    · simp [aupsert, h, alookup, ih]

theorem alookup_aupsert_ne {α β : Type} [DecidableEq α]
    (l : List (α × β)) (k k' : α) (v : β) (h : k' ≠ k) :
    alookup (aupsert l k v) k' = alookup l k' := by
  induction l with
  | nil => simp [aupsert, alookup, Ne.symm h]
  | cons hd tl ih =>
    obtain ⟨k0, v0⟩ := hd
    by_cases h0 : k0 = k
    · subst h0
      simp [aupsert, alookup, Ne.symm h]
    · simp only [aupsert, if_neg h0]
      by_cases h1 : k0 = k'
      · simp [alookup, h1]
      · simp [alookup, h1, ih]

theorem popLoop_found_lookup (all : List (Nat × ClientConnection)) :
    ∀ (avail : List Nat) (cv : Option Nat) (cid : Nat) (c : ClientConnection),
      (popLoop all avail cv).found = some (cid, c) →
      alookup all cid = some c ∧ c.is_busy = false := by
  intro avail
  induction avail with
  | nil => intro cv cid c h; simp [popLoop] at h
  | cons hd tl ih =>
    intro cv cid c h
    simp only [popLoop] at h
    split at h
    next heq => exact ih none cid c h
    next chd heq =>
      split at h
      next => exact ih (some hd) cid c h
      next hbusy =>
        simp only [PopOut.found] at h
        rw [Option.some.injEq, Prod.mk.injEq] at h
        obtain ⟨rfl, rfl⟩ := h
        exact ⟨heq, by simpa using hbusy⟩

theorem popLoop_none_rest (all : List (Nat × ClientConnection)) :
    ∀ (avail : List Nat) (cv : Option Nat),
      (popLoop all avail cv).found = none → (popLoop all avail cv).rest = [] := by
  intro avail
  induction avail with
  | nil => intro cv _; simp [popLoop]
  | cons hd tl ih =>
    intro cv h
    simp only [popLoop] at h ⊢
    split at h
    next heq => exact ih none h
    next chd heq =>
      split at h
      next hbusy => rw [if_pos hbusy]; exact ih (some hd) h
      next hbusy => simp only [PopOut.found] at h; exact absurd h (by simp)

theorem popLoop_mem_preserved (all : List (Nat × ClientConnection)) :
    ∀ (avail : List Nat) (cv : Option Nat) (cid : Nat) (c : ClientConnection),
      cid ∈ avail → alookup all cid = some c → c.is_busy = false →
      (popLoop all avail cv).found = some (cid, c) ∨ cid ∈ (popLoop all avail cv).rest := by
  intro avail
  induction avail with
  | nil => intro cv cid c hm; simp at hm
  | cons hd tl ih =>
    intro cv cid c hm hl hb
    simp only [popLoop]
    by_cases he : cid = hd
    · subst he
      split
      next heq => rw [hl] at heq; exact absurd heq (by simp)
      next chd heq =>
        rw [hl] at heq
        injection heq with heq'
        subst heq'
        split
        next hbusy => rw [hb] at hbusy; exact absurd hbusy (by simp)
        next hbusy => left; rfl
    · have hm' : cid ∈ tl := by
        cases hm with
        | head => exact absurd rfl he
        | tail _ h => exact h
      split
      next heq => exact ih none cid c hm' hl hb
      next chd heq =>
        split
        next hbusy => exact ih (some hd) cid c hm' hl hb
        next hbusy => right; exact hm'

theorem acquireSlow_inv (p : ClientPool) (u : String) (cv : Option Nat)
    (h : PoolInv p) : PoolInv (acquireSlow p u cv).pool := by
  unfold acquireSlow
  split
  next cid c rest cv' heq =>
    intro cid' c' hl hb
    dsimp only at hl ⊢
    by_cases hc : cid' = cid
    · subst hc
      rw [alookup_aupsert_self] at hl
      injection hl with hl'
      subst hl'
      exact absurd hb (by simp [markUsed])
    · rw [alookup_aupsert_ne _ _ _ _ hc] at hl
      have hmem := h cid' c' hl hb
      have hpres := popLoop_mem_preserved p.all_connections p.available_connections cv cid' c' hmem hl hb
      rw [heq] at hpres
      cases hpres with
      | inl hf =>
        simp only [PopOut.found, Option.some.injEq, Prod.mk.injEq] at hf
        exact absurd hf.1.symm hc
      | inr hr => exact hr
  next rest cv' heq =>
    have hrest : rest = [] := by
      have := popLoop_none_rest p.all_connections p.available_connections cv (by rw [heq])
      rw [heq] at this
      exact this
    subst hrest
    split
    next hlt =>
      intro cid' c' hl hb
      simp only [createConnection] at hl ⊢
      by_cases hc : cid' = p.next_id
      · subst hc
        rw [alookup_aupsert_self] at hl
        injection hl with hl'
        subst hl'
        exact absurd hb (by simp [markUsed])
      · rw [alookup_aupsert_ne _ _ _ _ hc, alookup_aupsert_ne _ _ _ _ hc] at hl
        have hmem := h cid' c' hl hb
        have hpres := popLoop_mem_preserved p.all_connections p.available_connections cv cid' c' hmem hl hb
        rw [heq] at hpres
        cases hpres with
        | inl hf => exact absurd hf (by simp)
        | inr hr => exact absurd hr (by simp)
    next hlt =>
      intro cid' c' hl hb
      dsimp only at hl ⊢
      have hmem := h cid' c' hl hb
      have hpres := popLoop_mem_preserved p.all_connections p.available_connections cv cid' c' hmem hl hb
      rw [heq] at hpres
      cases hpres with
      | inl hf => exact absurd hf (by simp)
      | inr hr => exact absurd hr (by simp)

theorem get_connection_acquire_inv (p : ClientPool) (u : String) (h : PoolInv p) :
    PoolInv (get_connection_acquire p u).pool := by
  unfold get_connection_acquire
  have h0 : PoolInv { p with total_requests := p.total_requests + 1, clock := p.clock + 1 } := h
  dsimp only
  split
  next cid heq =>
    split
    next c heq2 =>
      split
      next => exact acquireSlow_inv _ u (some cid) h0
      next hbusy =>
        intro cid' c' hl hb
        dsimp only at hl ⊢
        by_cases hc : cid' = cid
        · subst hc
          rw [alookup_aupsert_self] at hl
          injection hl with hl'
          subst hl'
          exact absurd hb (by simp [markUsed])
        · rw [alookup_aupsert_ne _ _ _ _ hc] at hl
          exact h0 cid' c' hl hb
    next heq2 => exact acquireSlow_inv _ u none h0
  next heq => exact acquireSlow_inv _ u none h0

theorem get_connection_release_inv (p : ClientPool) (cv : Option Nat) (h : PoolInv p) :
    PoolInv (get_connection_release p cv) := by
  unfold get_connection_release
  split
  next => exact h
  next cid =>
    split
    next => exact h
    next c heq =>
      dsimp only
      split
      next hmem =>
        intro cid' c' hl hb
        dsimp only at hl hmem ⊢
        by_cases hc : cid' = cid
        · subst hc; exact hmem
        · rw [alookup_aupsert_ne _ _ _ _ hc] at hl
          exact h cid' c' hl hb
      next hmem =>
        intro cid' c' hl hb
        dsimp only at hl ⊢
        by_cases hc : cid' = cid
        · subst hc; exact List.mem_append_right _ (by simp)
        · rw [alookup_aupsert_ne _ _ _ _ hc] at hl
          exact List.mem_append_left _ (h cid' c' hl hb)

theorem getElemSet_self {α : Type} (l : List α) (i : Nat) (a : α) (h : i < l.length) :
    (l.set i a)[i]? = some a := by
  simp [List.getElem?_set_self', List.getElem?_eq_getElem h]

theorem stepEnter_pool (cfg : Cfg) (i : Nat) (t : PoolTask) (h : cfg.tasks[i]? = some t) :
    (stepEnter cfg i).pool = (get_connection_acquire cfg.pool t.user).pool := by
  unfold stepEnter
  rw [h]
  dsimp only
  split <;> rfl

theorem stepExit_pool (cfg : Cfg) (i : Nat) : (stepExit cfg i).pool = cfg.pool := by
  unfold stepExit
  split
  · rfl
  · split <;> rfl

theorem stepFinalize_pool (cfg : Cfg) (i : Nat) (t : PoolTask) (res : AcquireResult)
    (cv : Option Nat) (h : cfg.tasks[i]? = some t) (hp : t.phase = .finalizing res cv) :
    (stepFinalize cfg i).pool = get_connection_release cfg.pool cv := by
  unfold stepFinalize
  rw [h]
  dsimp only
  rw [hp]

/-- The one-direction idle-set invariant holds in every configuration
reachable from a pool-invariant start. -/
theorem reach_poolInv {c0 cfg : Cfg} (h0 : PoolInv c0.pool) (hr : Reach c0 cfg) :
    PoolInv cfg.pool := by
  induction hr with
  | refl => exact h0
  | tail _ hs ih =>
    cases hs with
    | enter i t ht hph hlk =>
      rw [stepEnter_pool _ i t ht]
      exact get_connection_acquire_inv _ _ ih
    | exitUse i t res cv tid ht hph =>
      rw [stepExit_pool]
      exact ih
    | finalize i t res cv ht hph hlk =>
      rw [stepFinalize_pool _ i t res cv ht hph]
      exact get_connection_release_inv _ _ ih

theorem initCfg_poolInv (size : Nat) (users : List String) : PoolInv (initCfg size users).pool := by
  intro cid c hl _
  simp [initCfg, alookup] at hl

theorem inUseB_of_phase (cfg : Cfg) (i : Nat) (t : PoolTask) (res : AcquireResult)
    (cv : Option Nat) (tid : Option Nat) (h : cfg.tasks[i]? = some t)
    (hp : t.phase = .inUse res cv tid) : inUseB cfg i = true := by
  simp [inUseB, taskPhase, h, hp, isInUseB]

theorem stepEnter_shape (cfg : Cfg) (i : Nat) (t : PoolTask) (h : cfg.tasks[i]? = some t) :
    ∃ ph : TaskPhase, isInUseB ph = true ∧
      (stepEnter cfg i).tasks = cfg.tasks.set i { t with phase := ph } ∧
      (stepEnter cfg i).lockOwner = some i ∧
      (stepEnter cfg i).tempsDisconnected = cfg.tempsDisconnected := by
  unfold stepEnter
  rw [h]
  dsimp only
  split
  · refine ⟨_, ?_, rfl, rfl, rfl⟩
    rfl
  · refine ⟨_, ?_, rfl, rfl, rfl⟩
    rfl

theorem stepExit_shape (cfg : Cfg) (i : Nat) (t : PoolTask) (res : AcquireResult)
    (cv : Option Nat) (tid : Option Nat) (h : cfg.tasks[i]? = some t)
    (hp : t.phase = .inUse res cv tid) :
    (stepExit cfg i).tasks = cfg.tasks.set i { t with phase := .finalizing res cv } ∧
      (stepExit cfg i).lockOwner = none := by
  unfold stepExit
  rw [h]
  dsimp only
  rw [hp]
  exact ⟨rfl, rfl⟩

theorem stepFinalize_shape (cfg : Cfg) (i : Nat) (t : PoolTask) (res : AcquireResult)
    (cv : Option Nat) (h : cfg.tasks[i]? = some t) (hp : t.phase = .finalizing res cv) :
    (stepFinalize cfg i).tasks = cfg.tasks.set i { t with phase := .idle } ∧
      (stepFinalize cfg i).lockOwner = cfg.lockOwner := by
  unfold stepFinalize
  rw [h]
  dsimp only
  rw [hp]
  exact ⟨rfl, rfl⟩

theorem lockInv_stepEnter (cfg : Cfg) (i : Nat) (t : PoolTask)
    (ht : cfg.tasks[i]? = some t) (hlk : cfg.lockOwner = none) (h : LockInv cfg) :
    LockInv (stepEnter cfg i) := by
  obtain ⟨ph, hin, htasks, hlo, _⟩ := stepEnter_shape cfg i t ht
  intro j hj
  by_cases hji : j = i
  · subst hji; rw [hlo]
  · have hthis : inUseB cfg j = true := by
      rw [← hj]
      unfold inUseB taskPhase
      rw [htasks, List.getElem?_set_ne (fun hh => hji hh.symm)]
    exact absurd (h j hthis) (by rw [hlk]; simp)

theorem lockInv_stepExit (cfg : Cfg) (i : Nat) (t : PoolTask) (res : AcquireResult)
    (cv : Option Nat) (tid : Option Nat) (ht : cfg.tasks[i]? = some t)
    (hp : t.phase = .inUse res cv tid) (h : LockInv cfg) : LockInv (stepExit cfg i) := by
  obtain ⟨htasks, hlo⟩ := stepExit_shape cfg i t res cv tid ht hp
  have howner : cfg.lockOwner = some i := h i (inUseB_of_phase cfg i t res cv tid ht hp)
  intro j hj
  by_cases hji : j = i
  · subst hji
    have hlt : j < cfg.tasks.length := by
      by_contra hge
      rw [List.getElem?_eq_none (by omega)] at ht
      exact absurd ht (by simp)
    rw [inUseB, taskPhase, htasks] at hj
    rw [getElemSet_self _ _ _ hlt] at hj
    simp [isInUseB] at hj
  · have hthis : inUseB cfg j = true := by
      rw [← hj]
      unfold inUseB taskPhase
      rw [htasks, List.getElem?_set_ne (fun hh => hji hh.symm)]
    have hj2 := h j hthis
    rw [howner] at hj2
    injection hj2 with hj3
    exact absurd hj3.symm hji

theorem lockInv_stepFinalize (cfg : Cfg) (i : Nat) (t : PoolTask) (res : AcquireResult)
    (cv : Option Nat) (ht : cfg.tasks[i]? = some t) (hp : t.phase = .finalizing res cv)
    (hlk : cfg.lockOwner = none) (h : LockInv cfg) : LockInv (stepFinalize cfg i) := by
  obtain ⟨htasks, hlo⟩ := stepFinalize_shape cfg i t res cv ht hp
  intro j hj
  by_cases hji : j = i
  · subst hji
    have hlt : j < cfg.tasks.length := by
      by_contra hge
      rw [List.getElem?_eq_none (by omega)] at ht
      exact absurd ht (by simp)
    rw [inUseB, taskPhase, htasks] at hj
    rw [getElemSet_self _ _ _ hlt] at hj
    simp [isInUseB] at hj
  · have hthis : inUseB cfg j = true := by
      rw [← hj]
      unfold inUseB taskPhase
      rw [htasks, List.getElem?_set_ne (fun hh => hji hh.symm)]
    exact absurd (h j hthis) (by rw [hlk]; simp)

theorem reach_lockInv {c0 cfg : Cfg} (h0 : LockInv c0) (hr : Reach c0 cfg) : LockInv cfg := by
  induction hr with
  | refl => exact h0
  | tail _ hs ih =>
    cases hs with
    | enter i t ht hph hlk => exact lockInv_stepEnter _ i t ht hlk ih
    | exitUse i t res cv tid ht hp => exact lockInv_stepExit _ i t res cv tid ht hp ih
    | finalize i t res cv ht hp hlk => exact lockInv_stepFinalize _ i t res cv ht hp hlk ih

theorem initCfg_lockInv (size : Nat) (users : List String) : LockInv (initCfg size users) := by
  intro i hi
  unfold inUseB taskPhase initCfg at hi
  rw [List.getElem?_map] at hi
  cases h : users[i]? with
  | none => rw [h] at hi; simp at hi
  | some u => rw [h] at hi; simp [isInUseB] at hi

theorem reach_A1 : Reach cfgA0 cfgA1 :=
  .tail (.refl _) (PStep.enter cfgA0 0 { user := "A", phase := .idle } rfl rfl rfl)

theorem reach_A2 : Reach cfgA0 cfgA2 :=
  .tail reach_A1
    (PStep.exitUse cfgA1 0 { user := "A", phase := .inUse (.created 0) (some 0) none }
      (.created 0) (some 0) none rfl rfl)

theorem reach_A3 : Reach cfgA0 cfgA3 :=
  .tail reach_A2
    (PStep.finalize cfgA2 0 { user := "A", phase := .finalizing (.created 0) (some 0) }
      (.created 0) (some 0) rfl rfl rfl)

theorem reach_A4 : Reach cfgA0 cfgA4 :=
  .tail reach_A3 (PStep.enter cfgA3 0 { user := "A", phase := .idle } rfl rfl rfl)

/-- C1 counterexample: from a fresh pool of capacity 1 with one caller,
the operation sequence acquire-release-acquire is reachable and leaves a
state in which connection 0 is busy (checked out through the
affinity-reuse branch) while its id still sits in the idle set, so the
claimed if-and-only-if invariant is false at this reachable state. -/
theorem c1_idle_iff_busy_cex :
    Reach cfgA0 cfgA4 ∧
      (alookup cfgA4.pool.all_connections 0).map ClientConnection.is_busy = some true ∧
      0 ∈ cfgA4.pool.available_connections :=
  ⟨reach_A4, by decide, by decide⟩

/-- C1 amended: in every pool state reachable by any interleaving of
acquire (get_connection) and release operations, a tracked lease whose
busy flag is false appears in the idle set; the converse direction fails
because the affinity-reuse branch marks a lease busy without popping it
from the idle set. -/
theorem c1_idle_set_invariant (size : Nat) (users : List String) (cfg : Cfg)
    (hr : Reach (initCfg size users) cfg) (cid : Nat) (c : ClientConnection)
    (hl : alookup cfg.pool.all_connections cid = some c) (hb : c.is_busy = false) :
    cid ∈ cfg.pool.available_connections :=
  reach_poolInv (initCfg_poolInv size users) hr cid c hl hb

/-- C1 witness: after acquire-release from the fresh pool, lease 0 is not
busy and the amended invariant places it in the idle set. -/
theorem c1_idle_set_invariant_witness : 0 ∈ cfgA3.pool.available_connections :=
  c1_idle_set_invariant 1 ["A"] cfgA3 reach_A3 0
    { created_at := 1, last_used := 1, use_count := 1, is_busy := false, current_user := none }
    (by decide) rfl

/-- C2 counterexample: with capacity 1 and callers A and B, no reachable
interleaving has two tasks simultaneously suspended at the yield holding
pool resources — caller B cannot proceed to any lease, temporary or not,
while caller A holds L1, because the lock is held across A's entire use.
This refutes the claimed concurrent-holding scenario. -/
theorem c2_concurrent_hold_cex :
    ¬ ∃ cfg : Cfg, Reach (initCfg 1 ["A", "B"]) cfg ∧
      inUseB cfg 0 = true ∧ inUseB cfg 1 = true := by
  rintro ⟨cfg, hr, h0, h1⟩
  have hL := reach_lockInv (initCfg_lockInv 1 ["A", "B"]) hr
  have e0 := hL 0 h0
  have e1 := hL 1 h1
  rw [e0] at e1
  simp at e1

/-- C2 amended: the pool's mutual-exclusion gate is held from the
acquisition decision through backend resource creation and the caller's
entire use of the leased resource (the yield sits inside the with
self._lock block), so in every reachable configuration a task holding a
lease owns the gate, and a second caller's acquire waits for the first
caller's scope exit. -/
theorem c2_gate_spans_use (size : Nat) (users : List String) (cfg : Cfg) (i : Nat)
    (hr : Reach (initCfg size users) cfg) (hu : inUseB cfg i = true) :
    cfg.lockOwner = some i :=
  reach_lockInv (initCfg_lockInv size users) hr i hu

/-- C2 witness: in the reachable configuration where caller A has just
acquired its lease, A's task owns the gate. -/
theorem c2_gate_spans_use_witness : cfgA1.lockOwner = some 0 :=
  c2_gate_spans_use 1 ["A"] cfgA1 0 reach_A1 rfl

/-- The while-loop's pop result and remaining deque do not depend on the
initial value of the local variable connection. -/
theorem popLoop_cv_irrelevant (all : List (Nat × ClientConnection)) :
    ∀ (avail : List Nat) (cv cv' : Option Nat),
      (popLoop all avail cv).found = (popLoop all avail cv').found ∧
      (popLoop all avail cv).rest = (popLoop all avail cv').rest := by
  intro avail
  induction avail with
  | nil => intro cv cv'; exact ⟨rfl, rfl⟩
  | cons hd tl ih => intro cv cv'; exact ⟨rfl, rfl⟩

theorem acquire_affinity_hit (p : ClientPool) (u : String) (cid : Nat) (c : ClientConnection)
    (h : affinityHit p u = some (cid, c)) :
    (get_connection_acquire p u).result = .reused cid ∧
      alookup (get_connection_acquire p u).pool.all_connections cid =
        some (markUsed c u (p.clock + 1)) ∧
      (get_connection_acquire p u).pool.connections_reused = p.connections_reused + 1 ∧
      (get_connection_acquire p u).pool.available_connections = p.available_connections := by
  unfold affinityHit at h
  unfold get_connection_acquire
  dsimp only
  cases hm : alookup p.user_connections u with
  | none => rw [hm] at h; simp at h
  | some cid0 =>
    rw [hm] at h
    dsimp only at h ⊢
    cases hl : alookup p.all_connections cid0 with
    | none => rw [hl] at h; simp at h
    | some c0 =>
      rw [hl] at h
      dsimp only at h ⊢
      by_cases hb : c0.is_busy = true
      · rw [if_pos hb] at h; simp at h
      · rw [if_neg hb] at h
        rw [Option.some.injEq, Prod.mk.injEq] at h
        obtain ⟨rfl, rfl⟩ := h
        rw [if_neg hb]
        exact ⟨rfl, alookup_aupsert_self _ _ _, rfl, rfl⟩

theorem acquire_idle_pop (p : ClientPool) (u : String) (cid : Nat) (c : ClientConnection)
    (hmiss : affinityHit p u = none)
    (hfound : (popLoop p.all_connections p.available_connections none).found = some (cid, c)) :
    (get_connection_acquire p u).result = .assigned cid ∧
      alookup (get_connection_acquire p u).pool.user_connections u = some cid ∧
      alookup (get_connection_acquire p u).pool.all_connections cid =
        some (markUsed c u (p.clock + 1)) ∧
      (get_connection_acquire p u).pool.available_connections =
        (popLoop p.all_connections p.available_connections none).rest := by
  unfold affinityHit at hmiss
  unfold get_connection_acquire
  dsimp only
  have main : ∀ cv : Option Nat,
      (acquireSlow { p with total_requests := p.total_requests + 1, clock := p.clock + 1 } u cv).result = .assigned cid ∧
      alookup (acquireSlow { p with total_requests := p.total_requests + 1, clock := p.clock + 1 } u cv).pool.user_connections u = some cid ∧
      alookup (acquireSlow { p with total_requests := p.total_requests + 1, clock := p.clock + 1 } u cv).pool.all_connections cid = some (markUsed c u (p.clock + 1)) ∧
      (acquireSlow { p with total_requests := p.total_requests + 1, clock := p.clock + 1 } u cv).pool.available_connections =
        (popLoop p.all_connections p.available_connections none).rest := by
    intro cv
    have hf := (popLoop_cv_irrelevant p.all_connections p.available_connections cv none).1
    have hrst := (popLoop_cv_irrelevant p.all_connections p.available_connections cv none).2
    unfold acquireSlow
    dsimp only
    split
    next cid1 c1 rest1 cv1 heq =>
      have : (popLoop p.all_connections p.available_connections cv).found = some (cid1, c1) := by
        rw [heq]
      rw [hf, hfound] at this
      rw [Option.some.injEq, Prod.mk.injEq] at this
      obtain ⟨rfl, rfl⟩ := this
      refine ⟨rfl, alookup_aupsert_self _ _ _, alookup_aupsert_self _ _ _, ?_⟩
      dsimp only
      have : (popLoop p.all_connections p.available_connections cv).rest = rest1 := by
        rw [heq]
      rw [← this, hrst]
    next rest1 cv1 heq =>
      have : (popLoop p.all_connections p.available_connections cv).found = none := by
        rw [heq]
      rw [hf, hfound] at this
      exact absurd this (by simp)
  cases hm : alookup p.user_connections u with
  | none => exact main none
  | some cid0 =>
    rw [hm] at hmiss
    dsimp only at hmiss ⊢
    cases hl : alookup p.all_connections cid0 with
    | none => exact main none
    | some c0 =>
      rw [hl] at hmiss
      dsimp only at hmiss ⊢
      by_cases hb : c0.is_busy = true
      · rw [if_pos hb]; exact main (some cid0)
      · rw [if_neg hb] at hmiss; simp at hmiss

theorem acquire_create (p : ClientPool) (u : String)
    (hmiss : affinityHit p u = none)
    (hnone : (popLoop p.all_connections p.available_connections none).found = none)
    (hlt : p.all_connections.length < p.pool_size) :
    (get_connection_acquire p u).result = .created p.next_id ∧
      alookup (get_connection_acquire p u).pool.user_connections u = some p.next_id ∧
      alookup (get_connection_acquire p u).pool.all_connections p.next_id =
        some { created_at := p.clock + 1, last_used := p.clock + 1, use_count := 1,
               is_busy := true, current_user := some u } ∧
      (get_connection_acquire p u).pool.connections_created = p.connections_created + 1 := by
  unfold affinityHit at hmiss
  unfold get_connection_acquire
  dsimp only
  have main : ∀ cv : Option Nat,
      (acquireSlow { p with total_requests := p.total_requests + 1, clock := p.clock + 1 } u cv).result = .created p.next_id ∧
      alookup (acquireSlow { p with total_requests := p.total_requests + 1, clock := p.clock + 1 } u cv).pool.user_connections u = some p.next_id ∧
      alookup (acquireSlow { p with total_requests := p.total_requests + 1, clock := p.clock + 1 } u cv).pool.all_connections p.next_id =
        some { created_at := p.clock + 1, last_used := p.clock + 1, use_count := 1,
               is_busy := true, current_user := some u } ∧
      (acquireSlow { p with total_requests := p.total_requests + 1, clock := p.clock + 1 } u cv).pool.connections_created = p.connections_created + 1 := by
    intro cv
    have hf := (popLoop_cv_irrelevant p.all_connections p.available_connections cv none).1
    unfold acquireSlow
    dsimp only
    split
    next cid1 c1 rest1 cv1 heq =>
      have hcontra : (popLoop p.all_connections p.available_connections cv).found = some (cid1, c1) := by
        rw [heq]
      rw [hf, hnone] at hcontra
      exact absurd hcontra (by simp)
    next rest1 cv1 heq =>
      rw [if_pos hlt]
      exact ⟨rfl, alookup_aupsert_self _ _ _, alookup_aupsert_self _ _ _, rfl⟩
  cases hm : alookup p.user_connections u with
  | none => exact main none
  | some cid0 =>
    rw [hm] at hmiss
    dsimp only at hmiss ⊢
    cases hl : alookup p.all_connections cid0 with
    | none => exact main none
    | some c0 =>
      rw [hl] at hmiss
      dsimp only at hmiss ⊢
      by_cases hb : c0.is_busy = true
      · rw [if_pos hb]; exact main (some cid0)
      · rw [if_neg hb] at hmiss; simp at hmiss

theorem acquire_exhausted (p : ClientPool) (u : String)
    (hmiss : affinityHit p u = none)
    (hnone : (popLoop p.all_connections p.available_connections none).found = none)
    (hge : ¬ p.all_connections.length < p.pool_size) :
    (get_connection_acquire p u).result = .temporary ∧
      (get_connection_acquire p u).pool.pool_exhausted_count = p.pool_exhausted_count + 1 ∧
      (get_connection_acquire p u).pool.all_connections = p.all_connections ∧
      (get_connection_acquire p u).pool.available_connections = [] := by
  unfold affinityHit at hmiss
  unfold get_connection_acquire
  dsimp only
  have main : ∀ cv : Option Nat,
      (acquireSlow { p with total_requests := p.total_requests + 1, clock := p.clock + 1 } u cv).result = .temporary ∧
      (acquireSlow { p with total_requests := p.total_requests + 1, clock := p.clock + 1 } u cv).pool.pool_exhausted_count = p.pool_exhausted_count + 1 ∧
      (acquireSlow { p with total_requests := p.total_requests + 1, clock := p.clock + 1 } u cv).pool.all_connections = p.all_connections ∧
      (acquireSlow { p with total_requests := p.total_requests + 1, clock := p.clock + 1 } u cv).pool.available_connections = [] := by
    intro cv
    have hf := (popLoop_cv_irrelevant p.all_connections p.available_connections cv none).1
    have hrst := (popLoop_cv_irrelevant p.all_connections p.available_connections cv none).2
    unfold acquireSlow
    dsimp only
    split
    next cid1 c1 rest1 cv1 heq =>
      have hcontra : (popLoop p.all_connections p.available_connections cv).found = some (cid1, c1) := by
        rw [heq]
      rw [hf, hnone] at hcontra
      exact absurd hcontra (by simp)
    next rest1 cv1 heq =>
      rw [if_neg hge]
      refine ⟨rfl, rfl, rfl, ?_⟩
      have h1 : (popLoop p.all_connections p.available_connections cv).rest = rest1 := by
        rw [heq]
      have h2 : (popLoop p.all_connections p.available_connections cv).found = none := by
        rw [heq]
      have h3 := popLoop_none_rest p.all_connections p.available_connections cv h2
      dsimp only
      rw [← h1, h3]
  cases hm : alookup p.user_connections u with
  | none => exact main none
  | some cid0 =>
    rw [hm] at hmiss
    dsimp only at hmiss ⊢
    cases hl : alookup p.all_connections cid0 with
    | none => exact main none
    | some c0 =>
      rw [hl] at hmiss
      dsimp only at hmiss ⊢
      by_cases hb : c0.is_busy = true
      · rw [if_pos hb]; exact main (some cid0)
      · rw [if_neg hb] at hmiss; simp at hmiss

/-- C3 counterexample: in the reachable state cfgA4 (capacity 1, caller A
holding lease 0 through affinity reuse) the idle set is the non-empty [0]
and caller B has no affinity mapping, yet B's acquire does not return the
FIFO head as a pool-allocated lease: the busy head is popped and
discarded and the decision falls through to the temporary-overflow
branch. -/
theorem c3_decision_order_cex :
    Reach cfgA0 cfgA4 ∧
      cfgA4.pool.available_connections = [0] ∧
      alookup cfgA4.pool.user_connections "B" = none ∧
      (get_connection_acquire cfgA4.pool "B").result = .temporary :=
  ⟨reach_A4, by decide, by decide, by decide⟩

/-- C3 amended: get_connection evaluates exactly this decision order:
(1) if the caller's mapped lease is tracked and not busy it is marked busy
with use count and last-used bumped and returned with reused = true;
(2) else the idle deque is popped front to back, discarding entries that
are untracked or busy, and the first available entry is reassigned to the
caller, marked busy and returned with reused = false; (3) else if the
tracked-lease count is below capacity a new resource is created, marked
busy, added to the all-leases table and owner map, and returned with
reused = false; (4) else the temporary-overflow path is taken, bumping the
exhaustion counter and leaving the lease tables unchanged. -/
theorem c3_decision_order (p : ClientPool) (u : String) :
    (∀ cid c, affinityHit p u = some (cid, c) →
      (get_connection_acquire p u).result = .reused cid ∧
        alookup (get_connection_acquire p u).pool.all_connections cid =
          some (markUsed c u (p.clock + 1)) ∧
        (get_connection_acquire p u).pool.connections_reused = p.connections_reused + 1 ∧
        (get_connection_acquire p u).pool.available_connections = p.available_connections) ∧
    (∀ cid c, affinityHit p u = none →
      (popLoop p.all_connections p.available_connections none).found = some (cid, c) →
      (get_connection_acquire p u).result = .assigned cid ∧
        alookup (get_connection_acquire p u).pool.user_connections u = some cid ∧
        alookup (get_connection_acquire p u).pool.all_connections cid =
          some (markUsed c u (p.clock + 1)) ∧
        (get_connection_acquire p u).pool.available_connections =
          (popLoop p.all_connections p.available_connections none).rest) ∧
    (affinityHit p u = none →
      (popLoop p.all_connections p.available_connections none).found = none →
      p.all_connections.length < p.pool_size →
      (get_connection_acquire p u).result = .created p.next_id ∧
        alookup (get_connection_acquire p u).pool.user_connections u = some p.next_id ∧
        alookup (get_connection_acquire p u).pool.all_connections p.next_id =
          some { created_at := p.clock + 1, last_used := p.clock + 1, use_count := 1,
                 is_busy := true, current_user := some u } ∧
        (get_connection_acquire p u).pool.connections_created = p.connections_created + 1) ∧
    (affinityHit p u = none →
      (popLoop p.all_connections p.available_connections none).found = none →
      ¬ p.all_connections.length < p.pool_size →
      (get_connection_acquire p u).result = .temporary ∧
        (get_connection_acquire p u).pool.pool_exhausted_count = p.pool_exhausted_count + 1 ∧
        (get_connection_acquire p u).pool.all_connections = p.all_connections ∧
        (get_connection_acquire p u).pool.available_connections = []) :=
  ⟨fun cid c h => acquire_affinity_hit p u cid c h,
   fun cid c h1 h2 => acquire_idle_pop p u cid c h1 h2,
   fun h1 h2 h3 => acquire_create p u h1 h2 h3,
   fun h1 h2 h3 => acquire_exhausted p u h1 h2 h3⟩

/-- C3 witness: in cfgA3, caller A's affinity hit yields reused = true and
bumps the reuse counter. -/
theorem c3_decision_order_witness :
    (get_connection_acquire cfgA3.pool "A").result = .reused 0 ∧
      (get_connection_acquire cfgA3.pool "A").pool.connections_reused =
        cfgA3.pool.connections_reused + 1 :=
  have h := (c3_decision_order cfgA3.pool "A").1 0
    { created_at := 1, last_used := 1, use_count := 1, is_busy := false, current_user := none }
    (by decide)
  ⟨h.1, h.2.2.1⟩

theorem popLoop_found_connVar (all : List (Nat × ClientConnection)) :
    ∀ (avail : List Nat) (cv : Option Nat) (cid : Nat) (c : ClientConnection),
      (popLoop all avail cv).found = some (cid, c) →
      (popLoop all avail cv).connVar = some cid := by
  intro avail
  induction avail with
  | nil => intro cv cid c h; simp [popLoop] at h
  | cons hd tl ih =>
    intro cv cid c h
    simp only [popLoop] at h ⊢
    split at h
    next heq => exact ih none cid c h
    next chd heq =>
      split at h
      next hbusy => rw [if_pos hbusy]; exact ih (some hd) cid c h
      next hbusy =>
        rw [if_neg hbusy]
        simp only [PopOut.found] at h
        rw [Option.some.injEq, Prod.mk.injEq] at h
        rw [h.1]

theorem acquireSlow_connVar (p : ClientPool) (u : String) (cv : Option Nat) (cid : Nat)
    (h : (acquireSlow p u cv).result = .reused cid ∨ (acquireSlow p u cv).result = .assigned cid ∨
      (acquireSlow p u cv).result = .created cid) :
    (acquireSlow p u cv).connVar = some cid := by
  unfold acquireSlow at h ⊢
  split at h
  next cid1 c1 rest1 cv1 heq =>
    rcases h with h | h | h
    · exact absurd h (by simp)
    · dsimp only at h
      rw [AcquireResult.assigned.injEq] at h
      subst h
      have hcv := popLoop_found_connVar p.all_connections p.available_connections cv cid1 c1
        (by rw [heq])
      rw [heq] at hcv
      exact hcv
    · exact absurd h (by simp)
  next rest1 cv1 heq =>
    split at h
    next hlt =>
      rcases h with h | h | h
      · exact absurd h (by simp)
      · exact absurd h (by simp)
      · rw [if_pos hlt]
        dsimp only at h ⊢
        rw [AcquireResult.created.injEq] at h
        subst h
        rfl
    next hlt =>
      rcases h with h | h | h <;> exact absurd h (by simp)

theorem acquire_connVar (p : ClientPool) (u : String) (cid : Nat)
    (h : (get_connection_acquire p u).result = .reused cid ∨
      (get_connection_acquire p u).result = .assigned cid ∨
      (get_connection_acquire p u).result = .created cid) :
    (get_connection_acquire p u).connVar = some cid := by
  unfold get_connection_acquire at h ⊢
  dsimp only at h ⊢
  split at h
  next cid0 heq =>
    split at h
    next c0 heq2 =>
      split at h
      next hbusy =>
        rw [if_pos hbusy]
        exact acquireSlow_connVar _ u (some cid0) cid h
      next hbusy =>
        rw [if_neg hbusy]
        rcases h with h | h | h
        · dsimp only at h
          rw [AcquireResult.reused.injEq] at h
          subst h
          rfl
        · exact absurd h (by simp)
        · exact absurd h (by simp)
    next heq2 => exact acquireSlow_connVar _ u none cid h
  next heq => exact acquireSlow_connVar _ u none cid h

theorem release_returns_lease (p : ClientPool) (cid : Nat) (c : ClientConnection)
    (h : alookup p.all_connections cid = some c) :
    alookup (get_connection_release p (some cid)).all_connections cid = some (markReleased c) ∧
      cid ∈ (get_connection_release p (some cid)).available_connections := by
  unfold get_connection_release
  dsimp only
  rw [h]
  dsimp only
  split
  next hmem => exact ⟨alookup_aupsert_self _ _ _, hmem⟩
  next hmem =>
    refine ⟨alookup_aupsert_self _ _ _, ?_⟩
    exact List.mem_append_right _ (by simp)

theorem temp_disconnected_on_exit (cfg : Cfg) (i : Nat) (t : PoolTask) (res : AcquireResult)
    (cv : Option Nat) (tid : Nat) (ht : cfg.tasks[i]? = some t)
    (hp : t.phase = .inUse res cv (some tid)) :
    tid ∈ (stepExit cfg i).tempsDisconnected := by
  unfold stepExit
  rw [ht]
  dsimp only
  rw [hp]
  dsimp only
  exact List.mem_append_right _ (by simp)

/-- C5: on every scope exit a pool-owned lease (the connection recorded by
the acquisition, which is the returned lease on the reused, assigned and
created branches) is marked not busy and ends up in the idle set — the
finally block runs on normal and exceptional exits alike, which the single
exit step of the model represents; a temporary overflow lease is issued
only with the exhaustion counter bumped, is never added to the all-leases
table or the idle set, does not change stats() total_connections, and is
disconnected unconditionally when its holder's scope exits. -/
theorem c5_scope_exit :
    (∀ (p : ClientPool) (cid : Nat) (c : ClientConnection),
      alookup p.all_connections cid = some c →
      alookup (get_connection_release p (some cid)).all_connections cid =
          some (markReleased c) ∧
        cid ∈ (get_connection_release p (some cid)).available_connections) ∧
    (∀ (p : ClientPool) (u : String) (cid : Nat),
      ((get_connection_acquire p u).result = .reused cid ∨
        (get_connection_acquire p u).result = .assigned cid ∨
        (get_connection_acquire p u).result = .created cid) →
      (get_connection_acquire p u).connVar = some cid) ∧
    (∀ (p : ClientPool) (u : String),
      affinityHit p u = none →
      (popLoop p.all_connections p.available_connections none).found = none →
      ¬ p.all_connections.length < p.pool_size →
      (get_connection_acquire p u).result = .temporary ∧
        (get_connection_acquire p u).pool.all_connections = p.all_connections ∧
        (get_stats (get_connection_acquire p u).pool).total_connections =
          (get_stats p).total_connections ∧
        (get_connection_acquire p u).pool.available_connections = [] ∧
        (get_connection_acquire p u).pool.pool_exhausted_count = p.pool_exhausted_count + 1) ∧
    (∀ (cfg : Cfg) (i : Nat) (t : PoolTask) (res : AcquireResult) (cv : Option Nat) (tid : Nat),
      cfg.tasks[i]? = some t → t.phase = .inUse res cv (some tid) →
      tid ∈ (stepExit cfg i).tempsDisconnected) := by
  refine ⟨release_returns_lease, acquire_connVar, ?_, temp_disconnected_on_exit⟩
  intro p u h1 h2 h3
  obtain ⟨hres, hexh, hall, havail⟩ := acquire_exhausted p u h1 h2 h3
  exact ⟨hres, hall, by simp [get_stats, hall], havail, hexh⟩

/-- C5 witness: releasing lease 0 of cfgA1 marks it not busy and returns
it to the idle set; on the capacity-0 pool the first acquire is temporary,
leaves the lease tables empty, and bumps the exhaustion counter; the
temporary client 0 is disconnected at scope exit; and the created branch
of cfgA0's first acquire records lease 0 as the connection to release. -/
theorem c5_scope_exit_witness :
    (alookup (get_connection_release cfgA1.pool (some 0)).all_connections 0 =
        some { created_at := 1, last_used := 1, use_count := 1, is_busy := false,
               current_user := none } ∧
      0 ∈ (get_connection_release cfgA1.pool (some 0)).available_connections) ∧
    ((get_connection_acquire cfgT0.pool "A").result = .temporary ∧
      (get_connection_acquire cfgT0.pool "A").pool.all_connections = [] ∧
      (get_connection_acquire cfgT0.pool "A").pool.pool_exhausted_count = 1) ∧
    0 ∈ cfgT2.tempsDisconnected ∧
    (get_connection_acquire cfgA0.pool "A").connVar = some 0 := by
  have h1 := c5_scope_exit.1 cfgA1.pool 0
    { created_at := 1, last_used := 1, use_count := 1, is_busy := true,
      current_user := some "A" } (by decide)
  have h2 := c5_scope_exit.2.2.1 cfgT0.pool "A" (by decide) (by decide) (by decide)
  have h3 := c5_scope_exit.2.2.2 cfgT1 0
    { user := "A", phase := .inUse .temporary none (some 0) } .temporary none 0 (by decide) rfl
  have h4 := c5_scope_exit.2.1 cfgA0.pool "A" 0 (by decide)
  exact ⟨⟨h1.1, h1.2⟩, ⟨h2.1, h2.2.1, h2.2.2.2.2⟩, h3, h4⟩

theorem updateAttempt_ok_inv (key : String) (upd : List (String × JValue)) (now : Int)
    (sRead sCas : SessStore) (j : JValue) (s' : SessStore)
    (h : updateAttempt key upd now sRead sCas = .ok (j, s')) :
    ∃ entry cur ver, alookup sRead key = some entry ∧ entry.data = .obj cur ∧
      versionD cur = some ver ∧
      j = .obj (aupsert (aupsert (deepMergeObj cur upd) "updated_at" (.num now))
        "version" (.num (ver + 1))) ∧
      getField j "version" = some (.num (ver + 1)) ∧
      casVersionOk sCas key ver = true ∧
      validateSession (aupsert (aupsert (deepMergeObj cur upd) "updated_at" (.num now))
        "version" (.num (ver + 1))) = none ∧
      s' = aupsert sCas key { data := j, ttl := 86400 } := by
  unfold updateAttempt at h
  split at h
  next => exact absurd h (by simp)
  next entry heq =>
    split at h
    next cur heq2 =>
      split at h
      next => exact absurd h (by simp)
      next ver heq3 =>
        dsimp only at h
        cases hval : validateSession (aupsert (aupsert (deepMergeObj cur upd) "updated_at"
            (JValue.num now)) "version" (JValue.num (ver + 1))) with
        | some msg => rw [hval] at h; simp at h
        | none =>
          rw [hval] at h
          dsimp only at h
          by_cases hcas : casVersionOk sCas key ver = true
          · rw [if_pos hcas] at h
            rw [Except.ok.injEq, Prod.mk.injEq] at h
            obtain ⟨rfl, rfl⟩ := h
            refine ⟨entry, cur, ver, heq, heq2, heq3, rfl, ?_, hcas, hval, rfl⟩
            unfold getField
            exact alookup_aupsert_self _ _ _
          · rw [if_neg hcas] at h; simp at h
    next heq2 => exact absurd h (by simp)

theorem updateGo_ok_inv (key : String) (upd : List (String × JValue)) (now : Int) :
    ∀ (sched : List ((SessStore → SessStore) × (SessStore → SessStore))) (s : SessStore)
      (att : Nat) (backs : List Nat) (j : JValue),
      (updateGo key upd now sched s att backs).result = .ok j →
      ∃ sR sC, updateAttempt key upd now sR sC =
        .ok (j, (updateGo key upd now sched s att backs).store) := by
  intro sched
  induction sched with
  | nil => intro s att backs j h; simp [updateGo] at h
  | cons a rest ih =>
    intro s att backs j h
    obtain ⟨f, g⟩ := a
    simp only [updateGo] at h ⊢
    split at h
    next j0 s' hatt =>
      simp only [UpdateRun.result, Except.ok.injEq] at h
      subst h
      exact ⟨f s, g (f s), by rw [hatt]⟩
    next e hatt =>
      split at h
      next => simp only [UpdateRun.result] at h; exact absurd h (by simp)
      next b rest2 =>
        split at h
        next => exact ih _ _ _ j h
        next => exact ih _ _ _ j h

theorem update_session_conflict (uid : String) (upd : List (String × JValue)) (now : Int)
    (a1 a2 a3 : (SessStore → SessStore) × (SessStore → SessStore)) (s : SessStore)
    (h1 : updateAttempt (session_key uid) upd now (a1.1 s) (a1.2 (a1.1 s)) =
      .error .optimisticLockFailed)
    (h2 : updateAttempt (session_key uid) upd now (a2.1 (a1.2 (a1.1 s)))
      (a2.2 (a2.1 (a1.2 (a1.1 s)))) = .error .optimisticLockFailed)
    (h3 : updateAttempt (session_key uid) upd now (a3.1 (a2.2 (a2.1 (a1.2 (a1.1 s)))))
      (a3.2 (a3.1 (a2.2 (a2.1 (a1.2 (a1.1 s)))))) = .error .optimisticLockFailed) :
    (update_session uid upd now a1 a2 a3 s).result = .error .optimisticLockFailed ∧
      (update_session uid upd now a1 a2 a3 s).attempts = 3 ∧
      (update_session uid upd now a1 a2 a3 s).backoffs = [100, 200] ∧
      (update_session uid upd now a1 a2 a3 s).store =
        a3.2 (a3.1 (a2.2 (a2.1 (a1.2 (a1.1 s))))) := by
  obtain ⟨f1, g1⟩ := a1
  obtain ⟨f2, g2⟩ := a2
  obtain ⟨f3, g3⟩ := a3
  simp only at h1 h2 h3
  simp only [update_session, updateGo, h1, h2, h3]
  norm_num

/-- C4: every successful update_session call commits through some attempt
whose read produced a session object with some version ver, whose returned
session carries version ver + 1, and whose Lua compare-and-swap saw the
stored version still equal to ver; and when all three attempts hit a
version conflict the call takes exactly 3 attempts, sleeps the
0.1 * (attempt + 1) second backoffs (100 ms then 200 ms), performs no
write of its own (the final store is exactly the interference
composition), and fails with the optimistic-lock concurrency error. -/
theorem c4_update_cas (uid : String) (upd : List (String × JValue)) (now : Int)
    (a1 a2 a3 : (SessStore → SessStore) × (SessStore → SessStore)) (s : SessStore) :
    (∀ j, (update_session uid upd now a1 a2 a3 s).result = .ok j →
      ∃ sR sC entry cur ver,
        alookup sR (session_key uid) = some entry ∧ entry.data = .obj cur ∧
        versionD cur = some ver ∧
        getField j "version" = some (.num (ver + 1)) ∧
        casVersionOk sC (session_key uid) ver = true ∧
        updateAttempt (session_key uid) upd now sR sC =
          .ok (j, (update_session uid upd now a1 a2 a3 s).store)) ∧
    (updateAttempt (session_key uid) upd now (a1.1 s) (a1.2 (a1.1 s)) =
        .error .optimisticLockFailed →
      updateAttempt (session_key uid) upd now (a2.1 (a1.2 (a1.1 s)))
        (a2.2 (a2.1 (a1.2 (a1.1 s)))) = .error .optimisticLockFailed →
      updateAttempt (session_key uid) upd now (a3.1 (a2.2 (a2.1 (a1.2 (a1.1 s)))))
        (a3.2 (a3.1 (a2.2 (a2.1 (a1.2 (a1.1 s)))))) = .error .optimisticLockFailed →
      (update_session uid upd now a1 a2 a3 s).result = .error .optimisticLockFailed ∧
        (update_session uid upd now a1 a2 a3 s).attempts = 3 ∧
        (update_session uid upd now a1 a2 a3 s).backoffs = [100, 200] ∧
        (update_session uid upd now a1 a2 a3 s).store =
          a3.2 (a3.1 (a2.2 (a2.1 (a1.2 (a1.1 s)))))) := by
  constructor
  · intro j h
    obtain ⟨sR, sC, hAtt⟩ := updateGo_ok_inv (session_key uid) upd now [a1, a2, a3] s 0 [] j h
    obtain ⟨entry, cur, ver, hRead, hData, hVer, hJ, hGet, hCas, hValid, hStore⟩ :=
      updateAttempt_ok_inv _ _ _ _ _ _ _ hAtt
    exact ⟨sR, sC, entry, cur, ver, hRead, hData, hVer, hGet, hCas, hAtt⟩
  · exact update_session_conflict uid upd now a1 a2 a3 s

/-- C4 witness: an uncontended update of the concrete stored session
succeeds, and the success clause produces the read version, the
version + 1 commit and the CAS certificate for it. -/
theorem c4_update_cas_witness :
    ∃ j, (update_session "u1" [("note", .num 7)] 5 noInterference noInterference
        noInterference s9).result = .ok j ∧
      ∃ sR sC entry cur ver,
        alookup sR (session_key "u1") = some entry ∧ entry.data = .obj cur ∧
        versionD cur = some ver ∧
        getField j "version" = some (.num (ver + 1)) ∧
        casVersionOk sC (session_key "u1") ver = true ∧
        updateAttempt (session_key "u1") [("note", .num 7)] 5 sR sC =
          .ok (j, (update_session "u1" [("note", .num 7)] 5 noInterference noInterference
            noInterference s9).store) := by
  have hres : (update_session "u1" [("note", .num 7)] 5 noInterference noInterference
      noInterference s9).result = .ok (.obj
    [ ("user_id", .str "u1"), ("phone_number", .str "p1"), ("created_at", .num 0),
      ("updated_at", .num 5), ("version", .num 2),
      ("cart", .obj [("items", .arr []), ("total_amount", .num 0)]),
      ("note", .num 7) ]) := by
    rfl
  refine ⟨_, hres, ?_⟩
  exact (c4_update_cas "u1" [("note", .num 7)] 5 noInterference noInterference
    noInterference s9).1 _ hres

/-- C7: distributed_lock fails immediately with an error when the lock key
is live (no blocking or retry); release deletes the key exactly when the
live stored token equals the token this caller wrote, and does nothing
otherwise; consequently after a lock expires (timeout > 0 seconds have
passed) and another holder re-acquires it, the earlier holder's release
leaves the new holder's lock untouched, because the two timestamp tokens
necessarily differ. -/
theorem c7_distributed_lock (st : LockState) (resource : String) (timeout : Nat) :
    (∀ tok0, lockGet st (lockKey resource) = some tok0 →
      distributedLockAcquire st resource timeout =
        .error ("Could not acquire lock for " ++ resource)) ∧
    (∀ tok, lockGet st (lockKey resource) = some tok →
      distributedLockRelease st resource tok =
        { st with locks := aremove st.locks (lockKey resource) }) ∧
    (∀ tok, lockGet st (lockKey resource) ≠ some tok →
      distributedLockRelease st resource tok = st) ∧
    (lockGet st (lockKey resource) = none → 0 < timeout →
      ∀ d e, timeout ≤ d →
      ∃ tokA st1 tokB st3,
        distributedLockAcquire st resource timeout = .ok (tokA, st1) ∧
        distributedLockAcquire (lockTick st1 d) resource timeout = .ok (tokB, st3) ∧
        tokA ≠ tokB ∧
        distributedLockRelease (lockTick st3 e) resource tokA = lockTick st3 e) := by
  refine ⟨?_, ?_, ?_, ?_⟩
  · intro tok0 h
    unfold distributedLockAcquire
    dsimp only
    rw [h]
  · intro tok h
    unfold distributedLockRelease
    dsimp only
    rw [h]
    dsimp only
    rw [if_pos rfl]
  · intro tok h
    unfold distributedLockRelease
    dsimp only
    cases hg : lockGet st (lockKey resource) with
    | none => rfl
    | some v =>
      rw [hg] at h
      dsimp only
      rw [if_neg (fun hv => h (by rw [hv]))]
  · intro hfree hT d e hd
    refine ⟨st.now,
      ⟨aupsert st.locks (lockKey resource) ⟨st.now, st.now + timeout⟩, st.now⟩,
      st.now + d,
      ⟨aupsert (aupsert st.locks (lockKey resource) ⟨st.now, st.now + timeout⟩)
        (lockKey resource) ⟨st.now + d, st.now + d + timeout⟩, st.now + d⟩,
      ?_, ?_, ?_, ?_⟩
    · unfold distributedLockAcquire
      dsimp only
      rw [hfree]
    · unfold distributedLockAcquire
      dsimp only
      have hexp : lockGet (lockTick
          (⟨aupsert st.locks (lockKey resource) ⟨st.now, st.now + timeout⟩, st.now⟩ : LockState)
          d) (lockKey resource) = none := by
        unfold lockGet lockTick
        dsimp only
        rw [alookup_aupsert_self]
        dsimp only
        rw [if_neg (by omega)]
      rw [hexp]
      rfl
    · intro hcontra
      have hts : st.now = st.now + d := hcontra
      omega
    · unfold distributedLockRelease
      dsimp only
      split
      next v heq =>
        have hv : v = st.now + d := by
          unfold lockGet lockTick at heq
          dsimp only at heq
          rw [alookup_aupsert_self] at heq
          dsimp only at heq
          split at heq
          · rw [Option.some.injEq] at heq
            exact heq.symm
          · exact absurd heq (by simp)
        subst hv
        rw [if_neg (by omega)]
      next heq => rfl

/-- C7 witness: on an empty lock store with clock 0, the
expire-and-reacquire scenario runs with timeout 5 and a 5-tick gap, the
two tokens differ, and the early holder's release leaves the second lock
in place; and acquiring a held lock fails immediately. -/
theorem c7_distributed_lock_witness :
    (∃ tokA st1 tokB st3,
      distributedLockAcquire { locks := [], now := 0 } "r" 5 = .ok (tokA, st1) ∧
      distributedLockAcquire (lockTick st1 5) "r" 5 = .ok (tokB, st3) ∧
      tokA ≠ tokB ∧
      distributedLockRelease (lockTick st3 0) "r" tokA = lockTick st3 0) ∧
    distributedLockAcquire (⟨[(lockKey "r", ⟨0, 10⟩)], 1⟩ : LockState) "r" 7 =
      .error ("Could not acquire lock for " ++ "r") := by
  constructor
  · exact (c7_distributed_lock { locks := [], now := 0 } "r" 5).2.2.2 (by decide) (by decide)
      5 0 (by decide)
  · exact (c7_distributed_lock (⟨[(lockKey "r", ⟨0, 10⟩)], 1⟩ : LockState) "r" 7).1 0 (by decide)

/-- C6: create_session under the per-caller distributed lock is
idempotent: when a session is already stored for the caller it is returned
unchanged with no write; otherwise the default session (version 1, empty
cart items, empty conversation history) is synthesized, the seed data is
deep-merged in, the result is validated and, when valid, persisted with
the configured 86400-second time-to-live and returned; an invalid merge
fails with the descriptive error and writes nothing. -/
theorem c6_create_session (lockSt : LockState) (db : RedisDB) (uid phone : String)
    (init : Option (List (String × JValue))) (now : Int) :
    (lockGet lockSt (lockKey ("session_create_" ++ uid)) = none →
      (∀ entry, alookup db.sessions (session_key uid) = some entry →
        (create_session lockSt db uid phone init now).1 = .ok entry.data ∧
        (create_session lockSt db uid phone init now).2.1 = db) ∧
      (alookup db.sessions (session_key uid) = none →
        (validateSession (mergedSeed uid phone init now) = none →
          (create_session lockSt db uid phone init now).1 =
            .ok (.obj (mergedSeed uid phone init now)) ∧
          alookup (create_session lockSt db uid phone init now).2.1.sessions (session_key uid) =
            some { data := .obj (mergedSeed uid phone init now), ttl := 86400 }) ∧
        (∀ msg, validateSession (mergedSeed uid phone init now) = some msg →
          (create_session lockSt db uid phone init now).1 = .error (.invalidData msg) ∧
          (create_session lockSt db uid phone init now).2.1 = db))) ∧
    alookup (createDefaultSession uid phone now) "version" = some (.num 1) ∧
    (∃ cart, alookup (createDefaultSession uid phone now) "cart" = some (.obj cart) ∧
      alookup cart "items" = some (.arr [])) ∧
    (∃ cc, alookup (createDefaultSession uid phone now) "conversation_context" =
      some (.obj cc) ∧ alookup cc "history" = some (.arr [])) := by
  refine ⟨?_, rfl, ⟨_, rfl, rfl⟩, ⟨_, rfl, rfl⟩⟩
  intro hfree
  have hacq : distributedLockAcquire lockSt ("session_create_" ++ uid) 10 =
      .ok (lockSt.now, ⟨aupsert lockSt.locks (lockKey ("session_create_" ++ uid))
        ⟨lockSt.now, lockSt.now + 10⟩, lockSt.now⟩) := by
    unfold distributedLockAcquire
    dsimp only
    rw [hfree]
  constructor
  · intro entry hentry
    unfold create_session
    dsimp only
    rw [hacq]
    dsimp only
    rw [hentry]
    exact ⟨rfl, rfl⟩
  · intro habsent
    constructor
    · intro hvalid
      unfold create_session
      dsimp only
      rw [hacq]
      dsimp only
      rw [habsent]
      dsimp only
      rw [hvalid]
      exact ⟨rfl, alookup_aupsert_self _ _ _⟩
    · intro msg hmsg
      unfold create_session
      dsimp only
      rw [hacq]
      dsimp only
      rw [habsent]
      dsimp only
      rw [hmsg]
      exact ⟨rfl, rfl⟩

/-- C6 witness: on an empty database and free lock store, creating a
session for caller u1 persists the default session (version 1) with ttl
86400 and returns it; the second create then returns it unchanged. -/
theorem c6_create_session_witness :
    (create_session { locks := [], now := 0 } { sessions := [], active_sessions := [] }
      "u1" "p1" none 0).1 = .ok (.obj (mergedSeed "u1" "p1" none 0)) ∧
    alookup (create_session { locks := [], now := 0 } { sessions := [], active_sessions := [] }
      "u1" "p1" none 0).2.1.sessions (session_key "u1") =
      some { data := .obj (mergedSeed "u1" "p1" none 0), ttl := 86400 } :=
  ((c6_create_session { locks := [], now := 0 } { sessions := [], active_sessions := [] }
    "u1" "p1" none 0).1 (by decide)).2 (by rfl) |>.1 (by rfl)

theorem update_session_invalid (uid : String) (upd : List (String × JValue)) (now : Int)
    (s : SessStore) (msg : String)
    (h : updateAttempt (session_key uid) upd now s s = .error (.invalidData msg)) :
    (update_session uid upd now noInterference noInterference noInterference s).result =
        .error (.invalidData msg) ∧
      (update_session uid upd now noInterference noInterference noInterference s).store = s ∧
      (update_session uid upd now noInterference noInterference noInterference s).attempts = 3 ∧
      (update_session uid upd now noInterference noInterference noInterference s).backoffs
        = [] := by
  simp [update_session, updateGo, noInterference, h]

/-- C9 amended: a create_session call whose merged seed data fails
validation fails with the descriptive error and writes nothing; an
update_session call whose merged data fails validation also fails with
the descriptive error and writes nothing, but not immediately: the
catch-all retry re-runs the whole read-merge-validate cycle, so the call
fails only after all 3 attempts (with no backoff sleeps, which happen only
on version conflicts). -/
theorem c9_validation_no_write :
    (∀ (lockSt : LockState) (db : RedisDB) (uid phone : String)
      (init : Option (List (String × JValue))) (now : Int) (msg : String),
      lockGet lockSt (lockKey ("session_create_" ++ uid)) = none →
      alookup db.sessions (session_key uid) = none →
      validateSession (mergedSeed uid phone init now) = some msg →
      (create_session lockSt db uid phone init now).1 = .error (.invalidData msg) ∧
        (create_session lockSt db uid phone init now).2.1 = db) ∧
    (∀ (uid : String) (upd : List (String × JValue)) (now : Int) (s : SessStore) (msg : String),
      updateAttempt (session_key uid) upd now s s = .error (.invalidData msg) →
      (update_session uid upd now noInterference noInterference noInterference s).result =
          .error (.invalidData msg) ∧
        (update_session uid upd now noInterference noInterference noInterference s).store = s ∧
        (update_session uid upd now noInterference noInterference noInterference s).attempts
          = 3) := by
  constructor
  · intro lockSt db uid phone init now msg hfree habsent hmsg
    have hacq : distributedLockAcquire lockSt ("session_create_" ++ uid) 10 =
        .ok (lockSt.now, ⟨aupsert lockSt.locks (lockKey ("session_create_" ++ uid))
          ⟨lockSt.now, lockSt.now + 10⟩, lockSt.now⟩) := by
      unfold distributedLockAcquire
      dsimp only
      rw [hfree]
    unfold create_session
    dsimp only
    rw [hacq]
    dsimp only
    rw [habsent]
    dsimp only
    rw [hmsg]
    exact ⟨rfl, rfl⟩
  · intro uid upd now s msg h
    have hrun := update_session_invalid uid upd now s msg h
    exact ⟨hrun.1, hrun.2.1, hrun.2.2.1⟩

/-- C9 counterexample: updating the stored session with a negative cart
total fails with the descriptive validation error and writes nothing, but
the call is not immediate: the catch-all retry runs the whole
read-merge-validate cycle 3 times before failing. -/
theorem c9_validation_immediate_cex :
    (update_session "u1" [("cart", .obj [("total_amount", .num (-5))])] 7
        noInterference noInterference noInterference s9).attempts = 3 ∧
      (update_session "u1" [("cart", .obj [("total_amount", .num (-5))])] 7
        noInterference noInterference noInterference s9).result =
        .error (.invalidData "Invalid cart total amount") ∧
      (update_session "u1" [("cart", .obj [("total_amount", .num (-5))])] 7
        noInterference noInterference noInterference s9).store = s9 := by
  have h : updateAttempt (session_key "u1") [("cart", .obj [("total_amount", .num (-5))])] 7
      s9 s9 = .error (.invalidData "Invalid cart total amount") := by
    rfl
  have hrun := update_session_invalid "u1" [("cart", .obj [("total_amount", .num (-5))])] 7
    s9 "Invalid cart total amount" h
  exact ⟨hrun.2.2.1, hrun.1, hrun.2.1⟩

/-- C9 witness: the concrete negative-total update discharges the update
clause of the amended theorem, and an invalid seed discharges the create
clause. -/
theorem c9_validation_no_write_witness :
    ((create_session { locks := [], now := 0 } { sessions := [], active_sessions := [] }
        "u2" "p2" (some [("cart", .obj [("total_amount", .num (-3))])]) 0).1 =
      .error (.invalidData "Invalid cart total amount") ∧
      (create_session { locks := [], now := 0 } { sessions := [], active_sessions := [] }
        "u2" "p2" (some [("cart", .obj [("total_amount", .num (-3))])]) 0).2.1 =
        { sessions := [], active_sessions := [] }) ∧
    (update_session "u1" [("cart", .obj [("total_amount", .num (-5))])] 7
        noInterference noInterference noInterference s9).attempts = 3 := by
  constructor
  · refine c9_validation_no_write.1 { locks := [], now := 0 }
      { sessions := [], active_sessions := [] } "u2" "p2"
      (some [("cart", .obj [("total_amount", .num (-3))])]) 0
      "Invalid cart total amount" (by decide) (by rfl) ?_
    rfl
  · refine (c9_validation_no_write.2 "u1" [("cart", .obj [("total_amount", .num (-5))])] 7 s9
      "Invalid cart total amount" ?_).2.2
    rfl

theorem alookup_of_not_mem_keys {β : Type} (l : List (String × β)) (k : String)
    (h : k ∉ l.map Prod.fst) : alookup l k = none := by
  induction l with
  | nil => rfl
  | cons hd tl ih =>
    obtain ⟨k0, v0⟩ := hd
    simp only [List.map_cons, List.mem_cons] at h
    push_neg at h
    simp only [alookup, if_neg (fun hh : k0 = k => h.1 hh.symm)]
    exact ih h.2

theorem deepMergeF_nil (fuel : Nat) (base : List (String × JValue)) :
    deepMergeF fuel base [] = base := by
  cases fuel <;> rfl

theorem jsize_pos (v : JValue) : 1 ≤ jsize v := by
  cases v <;> simp [jsize]

theorem deepMergeF_congr (n : Nat) : ∀ (f1 f2 : Nat) (base upd : List (String × JValue)),
    jsizeL upd ≤ n → jsizeL upd ≤ f1 → jsizeL upd ≤ f2 →
    deepMergeF f1 base upd = deepMergeF f2 base upd := by
  induction n with
  | zero =>
    intro f1 f2 base upd hn _ _
    match upd with
    | [] => rw [deepMergeF_nil, deepMergeF_nil]
    | (k, v) :: rest =>
      exfalso
      have hsz : jsizeL ((k, v) :: rest) = 1 + jsize v + jsizeL rest := rfl
      omega
  | succ m ih =>
    intro f1 f2 base upd hn h1 h2
    match upd with
    | [] => rw [deepMergeF_nil, deepMergeF_nil]
    | (k, v) :: rest =>
      have hsz : jsizeL ((k, v) :: rest) = 1 + jsize v + jsizeL rest := rfl
      have hvpos : 1 ≤ jsize v := jsize_pos v
      obtain ⟨f1', rfl⟩ : ∃ f1', f1 = f1' + 1 := ⟨f1 - 1, by omega⟩
      obtain ⟨f2', rfl⟩ : ∃ f2', f2 = f2' + 1 := ⟨f2 - 1, by omega⟩
      have hrest : jsizeL rest ≤ m ∧ jsizeL rest ≤ f1' ∧ jsizeL rest ≤ f2' := by omega
      cases v with
      | obj u =>
        have hu : jsize (JValue.obj u) = 1 + jsizeL u := rfl
        have husz : jsizeL u ≤ m ∧ jsizeL u ≤ f1' ∧ jsizeL u ≤ f2' := by omega
        conv_lhs => rw [deepMergeF]
        conv_rhs => rw [deepMergeF]
        cases hb : alookup base k with
        | none => exact ih f1' f2' _ rest hrest.1 hrest.2.1 hrest.2.2
        | some b =>
          cases b with
          | obj bf =>
            dsimp only
            rw [ih f1' f2' bf u husz.1 husz.2.1 husz.2.2]
            exact ih f1' f2' _ rest hrest.1 hrest.2.1 hrest.2.2
          | null => exact ih f1' f2' _ rest hrest.1 hrest.2.1 hrest.2.2
          | bool _ => exact ih f1' f2' _ rest hrest.1 hrest.2.1 hrest.2.2
          | num _ => exact ih f1' f2' _ rest hrest.1 hrest.2.1 hrest.2.2
          | str _ => exact ih f1' f2' _ rest hrest.1 hrest.2.1 hrest.2.2
          | arr _ => exact ih f1' f2' _ rest hrest.1 hrest.2.1 hrest.2.2
      | null => exact ih f1' f2' _ rest hrest.1 hrest.2.1 hrest.2.2
      | bool _ => exact ih f1' f2' _ rest hrest.1 hrest.2.1 hrest.2.2
      | num _ => exact ih f1' f2' _ rest hrest.1 hrest.2.1 hrest.2.2
      | str _ => exact ih f1' f2' _ rest hrest.1 hrest.2.1 hrest.2.2
      | arr _ => exact ih f1' f2' _ rest hrest.1 hrest.2.1 hrest.2.2

theorem deepMergeObj_nil (base : List (String × JValue)) : deepMergeObj base [] = base := rfl

theorem mergeStep_not_obj (base : List (String × JValue)) (k : String) (v : JValue)
    (h : isObjB v = false) : mergeStep base k v = v := by
  cases hl : alookup base k with
  | none => cases v <;> simp [mergeStep, hl]
  | some b => cases v <;> cases b <;> simp_all [mergeStep, hl, isObjB]

theorem mergeStep_congr (b1 b2 : List (String × JValue)) (k : String) (v : JValue)
    (h : alookup b1 k = alookup b2 k) : mergeStep b1 k v = mergeStep b2 k v := by
  unfold mergeStep
  rw [h]

theorem deepMergeObj_cons (base : List (String × JValue)) (k : String) (v : JValue)
    (rest : List (String × JValue)) :
    deepMergeObj base ((k, v) :: rest) =
      deepMergeObj (aupsert base k (mergeStep base k v)) rest := by
  have hsz : jsizeL ((k, v) :: rest) = 1 + jsize v + jsizeL rest := rfl
  show deepMergeF (jsizeL ((k, v) :: rest)) base ((k, v) :: rest) =
    deepMergeF (jsizeL rest) (aupsert base k (mergeStep base k v)) rest
  obtain ⟨s, hs⟩ : ∃ s, jsizeL ((k, v) :: rest) = s + 1 :=
    ⟨jsize v + jsizeL rest, by omega⟩
  rw [hs]
  have hb_rest : jsizeL rest ≤ s := by omega
  cases v with
  | obj u =>
    have hu : jsize (JValue.obj u) = 1 + jsizeL u := rfl
    have hbu : jsizeL u ≤ s := by omega
    conv_lhs => rw [deepMergeF]
    cases hl : alookup base k with
    | none =>
      dsimp only
      have hm : mergeStep base k (JValue.obj u) = JValue.obj u := by
        unfold mergeStep
        rw [hl]
      rw [hm]
      exact deepMergeF_congr s s (jsizeL rest) _ rest hb_rest hb_rest le_rfl
    | some b =>
      cases b with
      | obj bf =>
        dsimp only
        have hm : mergeStep base k (JValue.obj u) = JValue.obj (deepMergeObj bf u) := by
          unfold mergeStep
          rw [hl]
        rw [hm]
        rw [show deepMergeF s bf u = deepMergeObj bf u from
          deepMergeF_congr s s (jsizeL u) bf u hbu hbu le_rfl]
        exact deepMergeF_congr s s (jsizeL rest) _ rest hb_rest hb_rest le_rfl
      | null =>
        dsimp only
        have hm : mergeStep base k (JValue.obj u) = JValue.obj u := by
          unfold mergeStep
          rw [hl]
        rw [hm]
        exact deepMergeF_congr s s (jsizeL rest) _ rest hb_rest hb_rest le_rfl
      | bool _ =>
        dsimp only
        have hm : mergeStep base k (JValue.obj u) = JValue.obj u := by
          unfold mergeStep
          rw [hl]
        rw [hm]
        exact deepMergeF_congr s s (jsizeL rest) _ rest hb_rest hb_rest le_rfl
      | num _ =>
        dsimp only
        have hm : mergeStep base k (JValue.obj u) = JValue.obj u := by
          unfold mergeStep
          rw [hl]
        rw [hm]
        exact deepMergeF_congr s s (jsizeL rest) _ rest hb_rest hb_rest le_rfl
      | str _ =>
        dsimp only
        have hm : mergeStep base k (JValue.obj u) = JValue.obj u := by
          unfold mergeStep
          rw [hl]
        rw [hm]
        exact deepMergeF_congr s s (jsizeL rest) _ rest hb_rest hb_rest le_rfl
      | arr _ =>
        dsimp only
        have hm : mergeStep base k (JValue.obj u) = JValue.obj u := by
          unfold mergeStep
          rw [hl]
        rw [hm]
        exact deepMergeF_congr s s (jsizeL rest) _ rest hb_rest hb_rest le_rfl
  | null =>
    rw [mergeStep_not_obj base k JValue.null rfl]
    exact deepMergeF_congr s s (jsizeL rest) _ rest hb_rest hb_rest le_rfl
  | bool b0 =>
    rw [mergeStep_not_obj base k (JValue.bool b0) rfl]
    exact deepMergeF_congr s s (jsizeL rest) _ rest hb_rest hb_rest le_rfl
  | num n0 =>
    rw [mergeStep_not_obj base k (JValue.num n0) rfl]
    exact deepMergeF_congr s s (jsizeL rest) _ rest hb_rest hb_rest le_rfl
  | str s0 =>
    rw [mergeStep_not_obj base k (JValue.str s0) rfl]
    exact deepMergeF_congr s s (jsizeL rest) _ rest hb_rest hb_rest le_rfl
  | arr a0 =>
    rw [mergeStep_not_obj base k (JValue.arr a0) rfl]
    exact deepMergeF_congr s s (jsizeL rest) _ rest hb_rest hb_rest le_rfl

theorem deepMergeObj_lookup (upd : List (String × JValue))
    (hnd : (upd.map Prod.fst).Nodup) : ∀ (base : List (String × JValue)) (k : String),
    (alookup upd k = none → alookup (deepMergeObj base upd) k = alookup base k) ∧
    (∀ v, alookup upd k = some v →
      alookup (deepMergeObj base upd) k = some (mergeStep base k v)) := by
  induction upd with
  | nil =>
    intro base k
    exact ⟨fun _ => rfl, fun v hv => by simp [alookup] at hv⟩
  | cons hd rest ih =>
    obtain ⟨k0, v0⟩ := hd
    simp only [List.map_cons, List.nodup_cons] at hnd
    obtain ⟨hk0, hnd'⟩ := hnd
    intro base k
    rw [deepMergeObj_cons]
    constructor
    · intro h
      by_cases he : k0 = k
      · subst he
        simp [alookup] at h
      · simp only [alookup, if_neg he] at h
        rw [((ih hnd') (aupsert base k0 (mergeStep base k0 v0)) k).1 h]
        exact alookup_aupsert_ne _ _ _ _ (fun hh => he hh.symm)
    · intro v hv
      by_cases he : k0 = k
      · subst he
        simp [alookup] at hv
        subst hv
        have hrest : alookup rest k0 = none :=
          alookup_of_not_mem_keys rest k0 hk0
        rw [((ih hnd') (aupsert base k0 (mergeStep base k0 v0)) k0).1 hrest]
        exact alookup_aupsert_self _ _ _
      · simp only [alookup, if_neg he] at hv
        rw [((ih hnd') (aupsert base k0 (mergeStep base k0 v0)) k).2 v hv]
        rw [mergeStep_congr _ base k v (alookup_aupsert_ne _ _ _ _ (fun hh => he hh.symm))]

/-- C8 amended: _deep_merge merges nested map-valued fields key-by-key and
overwrites non-map values whole (the general lookup law, clause one), so
an update of cart.items followed by a read returns a session whose cart
items are exactly the updated value while cart fields not named in the
update and all sibling top-level fields other than version and updated_at
(which update_session itself bumps) retain their prior values. -/
theorem c8_deep_merge_round_trip :
    (∀ (base upd : List (String × JValue)) (k : String),
      (upd.map Prod.fst).Nodup →
      (alookup upd k = none → alookup (deepMergeObj base upd) k = alookup base k) ∧
      (∀ v, alookup upd k = some v →
        alookup (deepMergeObj base upd) k = some (mergeStep base k v))) ∧
    (∀ (uid : String) (s : SessStore) (now : Int) (X : JValue) (entry : StoredEntry)
      (cur cart : List (String × JValue)) (v : Int),
      alookup s (session_key uid) = some entry → entry.data = .obj cur →
      alookup cur "cart" = some (.obj cart) →
      alookup cur "version" = some (.num v) →
      isObjB X = false →
      validateSession (aupsert (aupsert
        (deepMergeObj cur [("cart", .obj [("items", X)])]) "updated_at" (.num now))
        "version" (.num (v + 1))) = none →
      ∃ fin,
        (update_session uid [("cart", .obj [("items", X)])] now noInterference noInterference
          noInterference s).result = .ok (.obj fin) ∧
        (∃ cart2, alookup fin "cart" = some (.obj cart2) ∧
          alookup cart2 "items" = some X ∧
          ∀ k2, k2 ≠ "items" → alookup cart2 k2 = alookup cart k2) ∧
        (∀ k2, k2 ≠ "cart" → k2 ≠ "version" → k2 ≠ "updated_at" →
          alookup fin k2 = alookup cur k2) ∧
        alookup fin "version" = some (.num (v + 1)) ∧
        get_session [storeClient (update_session uid [("cart", .obj [("items", X)])] now
          noInterference noInterference noInterference s).store] (session_key uid) =
          some (.obj fin)) := by
  refine ⟨fun base upd k hnd => deepMergeObj_lookup upd hnd base k, ?_⟩
  intro uid s now X entry cur cart v hentry hdata hcart hver hX hvalid
  have hverD : versionD cur = some v := by
    unfold versionD
    rw [hver]
  have hcas : casVersionOk s (session_key uid) v = true := by
    unfold casVersionOk
    rw [hentry]
    dsimp only
    unfold getField
    rw [hdata]
    dsimp only
    rw [hver]
    dsimp only
    rw [if_pos rfl]
  have hAtt : updateAttempt (session_key uid) [("cart", .obj [("items", X)])] now s s =
      .ok (.obj (aupsert (aupsert (deepMergeObj cur [("cart", .obj [("items", X)])])
          "updated_at" (.num now)) "version" (.num (v + 1))),
        aupsert s (session_key uid)
          { data := .obj (aupsert (aupsert (deepMergeObj cur [("cart", .obj [("items", X)])])
              "updated_at" (.num now)) "version" (.num (v + 1))), ttl := 86400 }) := by
    unfold updateAttempt
    rw [hentry]
    dsimp only
    rw [hdata]
    dsimp only
    rw [hverD]
    dsimp only
    rw [hvalid]
    dsimp only
    rw [hcas]
    rfl
  refine ⟨aupsert (aupsert (deepMergeObj cur [("cart", .obj [("items", X)])])
      "updated_at" (.num now)) "version" (.num (v + 1)), ?_, ?_, ?_, ?_, ?_⟩
  · simp only [update_session, updateGo, noInterference, id_eq, hAtt]
  · refine ⟨deepMergeObj cart [("items", X)], ?_, ?_, ?_⟩
    · rw [alookup_aupsert_ne _ _ _ _ (by decide), alookup_aupsert_ne _ _ _ _ (by decide)]
      have hu := (deepMergeObj_lookup [("cart", .obj [("items", X)])] (by simp) cur "cart").2
        (.obj [("items", X)]) (by simp [alookup])
      rw [hu]
      unfold mergeStep
      rw [hcart]
    · have hi := (deepMergeObj_lookup [("items", X)] (by simp) cart "items").2 X
        (by simp [alookup])
      rw [hi, mergeStep_not_obj cart "items" X hX]
    · intro k2 hk2
      exact (deepMergeObj_lookup [("items", X)] (by simp) cart k2).1
        (by simp [alookup, Ne.symm hk2])
  · intro k2 hc hv2 hu2
    rw [alookup_aupsert_ne _ _ _ _ hv2, alookup_aupsert_ne _ _ _ _ hu2]
    exact (deepMergeObj_lookup [("cart", .obj [("items", X)])] (by simp) cur k2).1
      (by simp [alookup, Ne.symm hc])
  · exact alookup_aupsert_self _ _ _
  · simp only [update_session, updateGo, noInterference, id_eq, hAtt]
    unfold get_session storeClient
    rw [alookup_aupsert_self]
    rfl

/-- C8 counterexample: after update(u1, cart.items := [1]) on the stored
session, the sibling top-level fields version and updated_at do not retain
their prior values — version goes 1 to 2 and updated_at 0 to 3 — so the
claim that all sibling top-level fields retain their prior values is false
at this concrete input. -/
theorem c8_sibling_retention_cex :
    (update_session "u1" [("cart", .obj [("items", .arr [.num 1])])] 3
        noInterference noInterference noInterference s9).result =
      .ok (.obj
        [ ("user_id", .str "u1"), ("phone_number", .str "p1"), ("created_at", .num 0),
          ("updated_at", .num 3), ("version", .num 2),
          ("cart", .obj [("items", .arr [.num 1]), ("total_amount", .num 0)]) ]) ∧
      alookup base9 "version" = some (.num 1) ∧
      alookup base9 "updated_at" = some (.num 0) := by
  refine ⟨?_, rfl, rfl⟩
  rfl

/-- C8 witness: the round-trip clause applied to the concrete stored
session with items update [1]. -/
theorem c8_deep_merge_round_trip_witness :
    ∃ fin,
      (update_session "u1" [("cart", .obj [("items", .arr [.num 1])])] 3 noInterference
        noInterference noInterference s9).result = .ok (.obj fin) ∧
      (∃ cart2, alookup fin "cart" = some (.obj cart2) ∧
        alookup cart2 "items" = some (.arr [.num 1]) ∧
        ∀ k2, k2 ≠ "items" → alookup cart2 k2 =
          alookup [("items", JValue.arr []), ("total_amount", JValue.num 0)] k2) ∧
      (∀ k2, k2 ≠ "cart" → k2 ≠ "version" → k2 ≠ "updated_at" →
        alookup fin k2 = alookup base9 k2) ∧
      alookup fin "version" = some (.num (1 + 1)) ∧
      get_session [storeClient (update_session "u1" [("cart", .obj [("items", .arr [.num 1])])]
        3 noInterference noInterference noInterference s9).store] (session_key "u1") =
        some (.obj fin) := by
  refine c8_deep_merge_round_trip.2 "u1" s9 3 (.arr [.num 1])
    { data := .obj base9, ttl := 86400 } base9
    [("items", JValue.arr []), ("total_amount", JValue.num 0)] 1
    (by rfl) (by rfl) (by rfl) (by rfl) (by rfl) ?_
  rfl

theorem get_session_all_miss (key : String) :
    ∀ clients : List (String → Fetch),
      (∀ c ∈ clients, fetchHitB (c key) = false) → get_session clients key = none := by
  intro clients
  induction clients with
  | nil => intro _; rfl
  | cons c rest ih =>
    intro h
    have hc0 := h c (by simp)
    have hrest : ∀ c' ∈ rest, fetchHitB (c' key) = false := fun c' hc' => h c' (by simp [hc'])
    cases hc : c key with
    | fetchErr => simp [get_session, hc, ih hrest]
    | absent => simp [get_session, hc, ih hrest]
    | present raw =>
      cases raw with
      | good j => rw [hc] at hc0; simp [fetchHitB] at hc0
      | corrupt => simp [get_session, hc, parseRaw, ih hrest]

/-- C10: get_session is exception-free by construction (it is a total
function into Option): a client that raises, returns no record, or returns
an unparseable record is skipped and the walk continues with the next
client in iteration order; the first client holding a parseable record
determines the result; when every client raises the result is None,
exactly as when every client reports the record absent — a total storage
outage is indistinguishable from absence. -/
theorem c10_get_session_swallows (key : String) :
    (∀ clients : List (String → Fetch),
      (∀ c ∈ clients, c key = .fetchErr) → get_session clients key = none) ∧
    (∀ clients : List (String → Fetch),
      (∀ c ∈ clients, c key = .absent) → get_session clients key = none) ∧
    (∀ (pre : List (String → Fetch)) (c : String → Fetch) (rest : List (String → Fetch))
      (j : JValue),
      (∀ c' ∈ pre, fetchHitB (c' key) = false) → c key = .present (.good j) →
      get_session (pre ++ c :: rest) key = some j) := by
  refine ⟨?_, ?_, ?_⟩
  · intro clients h
    exact get_session_all_miss key clients (fun c hc => by rw [h c hc]; rfl)
  · intro clients h
    exact get_session_all_miss key clients (fun c hc => by rw [h c hc]; rfl)
  · intro pre
    induction pre with
    | nil =>
      intro c rest j _ hc
      simp [get_session, hc, parseRaw]
    | cons p pre' ih =>
      intro c rest j hmiss hc
      have hp0 := hmiss p (by simp)
      have hmiss' : ∀ c' ∈ pre', fetchHitB (c' key) = false :=
        fun c' hc' => hmiss c' (by simp [hc'])
      cases hp : p key with
      | fetchErr => simp [get_session, hp, ih c rest j hmiss' hc]
      | absent => simp [get_session, hp, ih c rest j hmiss' hc]
      | present raw =>
        cases raw with
        | good j2 => rw [hp] at hp0; simp [fetchHitB] at hp0
        | corrupt => simp [get_session, hp, parseRaw, ih c rest j hmiss' hc]

/-- C10 witness: with a raising first client and a second client holding
the record, get_session returns the second client's parsed session; with
every client raising it returns None. -/
theorem c10_get_session_swallows_witness :
    get_session [fun _ => Fetch.fetchErr, fun _ => Fetch.present (.good (.num 7))] "k" =
      some (.num 7) ∧
    get_session [fun _ => Fetch.fetchErr, fun _ => Fetch.fetchErr] "k" = none := by
  constructor
  · refine (c10_get_session_swallows "k").2.2 [fun _ => Fetch.fetchErr]
      (fun _ => Fetch.present (.good (.num 7))) [] (.num 7) ?_ rfl
    intro c hc
    simp only [List.mem_singleton] at hc
    subst hc
    rfl
  · refine (c10_get_session_swallows "k").1 [fun _ => Fetch.fetchErr, fun _ => Fetch.fetchErr] ?_
    intro c hc
    simp only [List.mem_cons, List.mem_singleton] at hc
    cases hc with
    | inl h => subst h; rfl
    | inr h => cases h with
      | inl h2 => subst h2; rfl
      | inr h2 => cases h2
